import Mathlib

/-!
# Vehicle Service Booking API (src/Server.js)

A shallow embedding of the route handlers of `src/Server.js`.

* The four module-level variables `vehicles`, `bookings`, `nextVehicleId`,
  `nextBookingId` become the fields of `State`; a handler is a function from the
  state and the request to the new state and the response.
* Arrays are lists. `push` appends at the end, `filter`, `find` and `some` are the
  list functions of the same meaning.
* Ids and the two counters are natural numbers. They are JavaScript Numbers in the
  source, whose arithmetic is exact on the integers below 2^53; the counters start
  at 2 and 1 and grow by one per successful create, and the embedding covers that
  exact range.
* `Number(x)` of a string is the platform's conversion. It is not part of the
  repository, so every handler that calls it takes it as the argument
  `strToNumber`; nothing is assumed about it.
* Request bodies have the shape of the data model: a text field is absent
  (`undefined`) or a string, `vehicleId` is absent, a number or a string.
-/

namespace Server

/-! ## JavaScript values -/

/-- A JavaScript Number: NaN, the two infinities, or a finite value. Every finite
double is a rational, and `+0` and `-0` are not told apart by `===` or `!`. -/
inductive JNum where
  | nan
  | posInf
  | negInf
  | fin (q : ℚ)
  deriving DecidableEq

/-- The Number of an id handed out by one of the counters. -/
def JNum.ofNat (n : Nat) : JNum := .fin (n : ℚ)

/-- Strict equality `a === b` of two Numbers: NaN equals nothing, itself included. -/
def JNum.strictEq (a b : JNum) : Bool := a != .nan && a == b

/-- Falsiness `!a` of a Number: true for 0 and NaN. -/
def JNum.falsy (a : JNum) : Bool := a == .nan || a == .fin 0

/-- The value of `vehicleId` in a JSON body, when present: a number or a string. -/
inductive IdValue where
  | num (n : JNum)
  | str (s : String)
  deriving DecidableEq

/-- Falsiness `!x` of a field that may be absent: `undefined` and the empty string
are falsy, every other string is truthy. -/
def falsyText : Option String → Bool
  | none => true
  | some s => s == ""

/-- Falsiness `!vehicleId`: `undefined`, the numbers 0 and NaN and the empty string. -/
def falsyId : Option IdValue → Bool
  | none => true
  | some (.num n) => n.falsy
  | some (.str s) => s == ""

/-- The conversion `Number(vehicleId)` of a present `vehicleId`; `strToNumber` is the
platform's `Number` on strings. -/
def toNumber (strToNumber : String → JNum) : IdValue → JNum
  | .num n => n
  | .str s => strToNumber s

/-- UTF-16 code units of one character: JavaScript strings are sequences of them. -/
def utf16 (c : Char) : List Nat :=
  if c.toNat < 0x10000 then [c.toNat]
  else [0xD800 + (c.toNat - 0x10000) / 0x400, 0xDC00 + (c.toNat - 0x10000) % 0x400]

/-- The code units of a string. -/
def codeUnits (s : String) : List Nat := s.toList.flatMap utf16

/-- The comparison `a < b` of two strings as ECMAScript defines it, on code units:
the first position where the two differ decides; if there is none, the shorter
string is the smaller. -/
def unitsLt : List Nat → List Nat → Bool
  | [], [] => false
  | [], _ :: _ => true
  | _ :: _, [] => false
  | x :: xs, y :: ys => if x < y then true else if y < x then false else unitsLt xs ys

/-- The comparison `a >= b` of two strings: the negation of `a < b`. -/
def strGe (a b : String) : Bool := !unitsLt (codeUnits a) (codeUnits b)

/-! ## Data model -/

/-- A vehicle record `{ id, regNumber, model, owner }`. -/
structure Vehicle where
  id : Nat
  regNumber : String
  model : String
  owner : String
  deriving DecidableEq

/-- A booking record `{ id, vehicleId, serviceDate, description, status }`.
`vehicleId` holds the result of `Number(...)`, which can be any Number. -/
structure Booking where
  id : Nat
  vehicleId : JNum
  serviceDate : String
  description : String
  status : String
  deriving DecidableEq

/-- The in-memory database: the module-level variables of the server. -/
structure State where
  vehicles : List Vehicle
  bookings : List Booking
  nextVehicleId : Nat
  nextBookingId : Nat
  deriving DecidableEq

/-- The state the module starts in (lines 15-21). -/
def initialState : State :=
  { vehicles := [{ id := 1, regNumber := "AP01AB1234", model := "Swift", owner := "Reddy" }]
    bookings := []
    nextVehicleId := 2
    nextBookingId := 1 }

/-- The body of `POST /api/vehicles` and `PATCH /api/vehicles/:id`. -/
structure VehicleBody where
  regNumber : Option String
  model : Option String
  owner : Option String
  deriving DecidableEq

/-- The body of `POST /api/bookings` and `PATCH /api/bookings/:id`. -/
structure BookingBody where
  vehicleId : Option IdValue
  serviceDate : Option String
  description : Option String
  status : Option String
  deriving DecidableEq

/-- What a handler sends as the body of its response. -/
inductive ResBody where
  | empty
  | message (text : String)
  | error (text : String)
  | vehicle (v : Vehicle)
  | vehicles (vs : List Vehicle)
  | booking (b : Booking)
  | bookings (bs : List Booking)
  | summary (totalVehicles totalBookings upcomingServices : Nat)
  deriving DecidableEq

/-- A response: the status code and the body. `res.json(x)` alone answers 200. -/
structure Response where
  status : Nat
  body : ResBody
  deriving DecidableEq

/-! ## Utility functions -/

/-- The function `getUpcomingBookings` (lines 26-33), with the date string
`new Date().toISOString().slice(0, 10)` as the argument `today`. -/
def getUpcomingBookings (today : String) (bookings : List Booking) : List Booking :=
  bookings.filter fun b =>
    strGe b.serviceDate today && (b.status == "Scheduled" || b.status == "Pending")

/-- Mutation in place of the object that `find` returns: the first element that
satisfies `p` is replaced by its image under `f`, every other element stays. -/
def updateFirst {α : Type} (p : α → Bool) (f : α → α) : List α → List α
  | [] => []
  | x :: xs => if p x then f x :: xs else x :: updateFirst p f xs

/-! ## Routes -/

/-- The handler of `GET /` (lines 40-42). -/
def getRoot (s : State) : State × Response :=
  (s, ⟨200, .message "Vehicle Service Booking API is running"⟩)

/-- The handler of `GET /api/summary` (lines 45-51). -/
def getSummary (today : String) (s : State) : State × Response :=
  (s, ⟨200, .summary s.vehicles.length s.bookings.length
    (getUpcomingBookings today s.bookings).length⟩)

/-- The handler of `GET /api/vehicles` (lines 56-58). -/
def getVehicles (s : State) : State × Response :=
  (s, ⟨200, .vehicles s.vehicles⟩)

/-- The handler of `POST /api/vehicles` (lines 61-69). -/
def postVehicles (s : State) (body : VehicleBody) : State × Response :=
  if falsyText body.regNumber || falsyText body.model || falsyText body.owner then
    (s, ⟨400, .error "All fields are required"⟩)
  else
    match body.regNumber, body.model, body.owner with
    | some regNumber, some model, some owner =>
      let v : Vehicle :=
        { id := s.nextVehicleId, regNumber := regNumber, model := model, owner := owner }
      ({ s with vehicles := s.vehicles ++ [v], nextVehicleId := s.nextVehicleId + 1 },
        ⟨201, .vehicle v⟩)
    -- not reached: an absent field is falsy and has been answered above
    | _, _, _ => (s, ⟨400, .error "All fields are required"⟩)

/-- The three assignments of lines 79-81: a field of the body that is not
`undefined` overwrites the field of the vehicle. -/
def applyVehicleBody (body : VehicleBody) (vehicle : Vehicle) : Vehicle :=
  let vehicle := match body.regNumber with
    | some regNumber => { vehicle with regNumber := regNumber }
    | none => vehicle
  let vehicle := match body.model with
    | some model => { vehicle with model := model }
    | none => vehicle
  match body.owner with
  | some owner => { vehicle with owner := owner }
  | none => vehicle

/-- The handler of `PATCH /api/vehicles/:id` (lines 72-84). -/
def patchVehicle (strToNumber : String → JNum) (s : State) (idParam : String)
    (body : VehicleBody) : State × Response :=
  let id := strToNumber idParam
  match s.vehicles.find? (fun v => (JNum.ofNat v.id).strictEq id) with
  | none => (s, ⟨404, .error "Vehicle not found"⟩)
  | some vehicle =>
    ({ s with vehicles :=
        (updateFirst (fun v => (JNum.ofNat v.id).strictEq id) (applyVehicleBody body)
          s.vehicles) },
      ⟨200, .vehicle (applyVehicleBody body vehicle)⟩)

/-- The handler of `DELETE /api/vehicles/:id` (lines 87-97). -/
def deleteVehicle (strToNumber : String → JNum) (s : State) (idParam : String) :
    State × Response :=
  let id := strToNumber idParam
  let «exists» := s.vehicles.any (fun v => (JNum.ofNat v.id).strictEq id)
  if !«exists» then
    (s, ⟨404, .error "Vehicle not found"⟩)
  else
    ({ s with
        vehicles := s.vehicles.filter (fun v => !(JNum.ofNat v.id).strictEq id)
        bookings := s.bookings.filter (fun b => !b.vehicleId.strictEq id) },
      ⟨204, .empty⟩)

/-- The handler of `GET /api/bookings` (lines 102-108); `upcoming` is the query
parameter, `none` when the query has none. -/
def getBookings (today : String) (s : State) (upcoming : Option String) : State × Response :=
  if upcoming = some "true" then
    (s, ⟨200, .bookings (getUpcomingBookings today s.bookings)⟩)
  else
    (s, ⟨200, .bookings s.bookings⟩)

/-- The handler of `POST /api/bookings` (lines 111-132). -/
def postBookings (strToNumber : String → JNum) (s : State) (body : BookingBody) :
    State × Response :=
  if falsyId body.vehicleId || falsyText body.serviceDate || falsyText body.description
      || falsyText body.status then
    (s, ⟨400, .error "All fields are required"⟩)
  else
    match body.vehicleId, body.serviceDate, body.description, body.status with
    | some vehicleId, some serviceDate, some description, some status =>
      let vehicleExists :=
        s.vehicles.any (fun v => (JNum.ofNat v.id).strictEq (toNumber strToNumber vehicleId))
      if !vehicleExists then
        (s, ⟨400, .error "Invalid vehicleId"⟩)
      else
        let b : Booking :=
          { id := s.nextBookingId
            vehicleId := toNumber strToNumber vehicleId
            serviceDate := serviceDate
            description := description
            status := status }
        ({ s with bookings := s.bookings ++ [b], nextBookingId := s.nextBookingId + 1 },
          ⟨201, .booking b⟩)
    -- not reached: an absent field is falsy and has been answered above
    | _, _, _, _ => (s, ⟨400, .error "All fields are required"⟩)

/-- The four assignments of lines 143-146: a field of the body that is not
`undefined` overwrites the field of the booking, `vehicleId` through `Number`. -/
def applyBookingBody (strToNumber : String → JNum) (body : BookingBody) (booking : Booking) :
    Booking :=
  let booking := match body.vehicleId with
    | some vehicleId => { booking with vehicleId := toNumber strToNumber vehicleId }
    | none => booking
  let booking := match body.serviceDate with
    | some serviceDate => { booking with serviceDate := serviceDate }
    | none => booking
  let booking := match body.description with
    | some description => { booking with description := description }
    | none => booking
  match body.status with
  | some status => { booking with status := status }
  | none => booking

/-- The handler of `PATCH /api/bookings/:id` (lines 135-149). -/
def patchBooking (strToNumber : String → JNum) (s : State) (idParam : String)
    (body : BookingBody) : State × Response :=
  let id := strToNumber idParam
  match s.bookings.find? (fun b => (JNum.ofNat b.id).strictEq id) with
  | none => (s, ⟨404, .error "Booking not found"⟩)
  | some booking =>
    ({ s with bookings :=
        (updateFirst (fun b => (JNum.ofNat b.id).strictEq id)
          (applyBookingBody strToNumber body) s.bookings) },
      ⟨200, .booking (applyBookingBody strToNumber body booking)⟩)

/-- The handler of `DELETE /api/bookings/:id` (lines 152-160). -/
def deleteBooking (strToNumber : String → JNum) (s : State) (idParam : String) :
    State × Response :=
  let id := strToNumber idParam
  let «exists» := s.bookings.any (fun b => (JNum.ofNat b.id).strictEq id)
  if !«exists» then
    (s, ⟨404, .error "Booking not found"⟩)
  else
    ({ s with bookings := s.bookings.filter (fun b => !(JNum.ofNat b.id).strictEq id) },
      ⟨204, .empty⟩)

/-- The fallback for every other route (lines 163-165). -/
def notFound (s : State) : State × Response :=
  (s, ⟨404, .error "Not found"⟩)

/-! ## The server as a transition system -/

/-- A request, by the route that matches it. -/
inductive Request where
  | getRoot
  | getSummary
  | getVehicles
  | postVehicles (body : VehicleBody)
  | patchVehicle (idParam : String) (body : VehicleBody)
  | deleteVehicle (idParam : String)
  | getBookings (upcoming : Option String)
  | postBookings (body : BookingBody)
  | patchBooking (idParam : String) (body : BookingBody)
  | deleteBooking (idParam : String)
  | unmatched
  deriving DecidableEq

/-- One request handled to completion; `today` is the date string at that moment. -/
def handle (strToNumber : String → JNum) (today : String) (s : State) :
    Request → State × Response
  | .getRoot => getRoot s
  | .getSummary => getSummary today s
  | .getVehicles => getVehicles s
  | .postVehicles body => postVehicles s body
  | .patchVehicle idParam body => patchVehicle strToNumber s idParam body
  | .deleteVehicle idParam => deleteVehicle strToNumber s idParam
  | .getBookings upcoming => getBookings today s upcoming
  | .postBookings body => postBookings strToNumber s body
  | .patchBooking idParam body => patchBooking strToNumber s idParam body
  | .deleteBooking idParam => deleteBooking strToNumber s idParam
  | .unmatched => notFound s

/-- The states the server can be in: the initial one and what any request, at any
date, makes of a reachable one. -/
inductive Reachable (strToNumber : String → JNum) : State → Prop where
  | init : Reachable strToNumber initialState
  | step {s : State} (today : String) (req : Request) :
      Reachable strToNumber s → Reachable strToNumber (handle strToNumber today s req).1

/-- A sequence of requests handled one after the other, each with the date string at
its moment: the final state, and the log of every request with its response. -/
def run (strToNumber : String → JNum) (s : State) :
    List (String × Request) → State × List (Request × Response)
  | [] => (s, [])
  | (today, req) :: rest =>
    ((run strToNumber (handle strToNumber today s req).1 rest).1,
      (req, (handle strToNumber today s req).2) ::
        (run strToNumber (handle strToNumber today s req).1 rest).2)

/-- The id that an entry of the log handed out to a new vehicle, if it did. -/
def createdVehicleId : Request × Response → Option Nat
  | (.postVehicles _, ⟨201, .vehicle v⟩) => some v.id
  | _ => none

/-- The id that an entry of the log handed out to a new booking, if it did. -/
def createdBookingId : Request × Response → Option Nat
  | (.postBookings _, ⟨201, .booking b⟩) => some b.id
  | _ => none

/-! ## Specification-side notions -/

/-- Lexicographic order of strings as the specification names it, taken from the
library: `a` is greater than or equal to `b` when the code units of `a` are not
lexicographically below those of `b`. -/
def LexGe (a b : String) : Prop := ¬ List.Lex (· < ·) (codeUnits a) (codeUnits b)

/-- An upcoming booking in the words of the specification: the service date is
lexicographically today or later and the status is "Scheduled" or "Pending". -/
def IsUpcoming (today : String) (b : Booking) : Prop :=
  LexGe b.serviceDate today ∧ (b.status = "Scheduled" ∨ b.status = "Pending")

/-- Ids of a collection are in strictly increasing order and below the counter. -/
def IdsBelow (ids : List Nat) (next : Nat) : Prop :=
  ids.Pairwise (· < ·) ∧ ∀ i ∈ ids, i < next

/-- The invariant of the two collections and their counters. -/
def Inv (s : State) : Prop :=
  IdsBelow (s.vehicles.map (·.id)) s.nextVehicleId ∧
  IdsBelow (s.bookings.map (·.id)) s.nextBookingId

/-- Whether a request re-points a booking: a `PATCH /api/bookings/:id` whose body
supplies `vehicleId`. -/
def suppliesVehicleId : Request → Bool
  | .patchBooking _ body => body.vehicleId.isSome
  | _ => false

/-- The states reachable by requests of which none re-points a booking. -/
inductive ReachableWithoutRepointing (strToNumber : String → JNum) : State → Prop where
  | init : ReachableWithoutRepointing strToNumber initialState
  | step {s : State} (today : String) (req : Request) :
      suppliesVehicleId req = false → ReachableWithoutRepointing strToNumber s →
      ReachableWithoutRepointing strToNumber (handle strToNumber today s req).1

/-- A calendar date by its three numbers. -/
structure CalendarDate where
  year : Nat
  month : Nat
  day : Nat
  deriving DecidableEq

/-- A well-formed date: the year has at most four digits, the month is 1 to 12 and
the day 1 to 31. -/
def CalendarDate.WellFormed (d : CalendarDate) : Prop :=
  d.year ≤ 9999 ∧ 1 ≤ d.month ∧ d.month ≤ 12 ∧ 1 ≤ d.day ∧ d.day ≤ 31

instance (d : CalendarDate) : Decidable d.WellFormed := by
  unfold CalendarDate.WellFormed
  infer_instance

/-- The character of the last decimal digit of a number. -/
def digitChar (n : Nat) : Char := Char.ofNat (48 + n % 10)

/-- The zero-padded ten-character string "YYYY-MM-DD" of a date. -/
def CalendarDate.iso (d : CalendarDate) : String :=
  String.mk
    [digitChar (d.year / 1000), digitChar (d.year / 100), digitChar (d.year / 10),
      digitChar d.year, '-', digitChar (d.month / 10), digitChar d.month, '-',
      digitChar (d.day / 10), digitChar d.day]

/-- Calendar order: the date `a` is the date `b` or a later one. -/
def CalendarDate.OnOrAfter (a b : CalendarDate) : Prop :=
  b.year < a.year ∨
    (a.year = b.year ∧ (b.month < a.month ∨ (a.month = b.month ∧ b.day ≤ a.day)))

/-- Referential integrity: the `vehicleId` of every booking is the id of a vehicle of
the vehicle list. -/
def ReferentialIntegrity (s : State) : Prop :=
  ∀ b ∈ s.bookings, ∃ v ∈ s.vehicles, b.vehicleId = JNum.ofNat v.id

instance (a b : CalendarDate) : Decidable (a.OnOrAfter b) := by
  unfold CalendarDate.OnOrAfter
  infer_instance

/-! ## Sample inputs -/

/-- A sample conversion of strings to Numbers for the examples: the value of a
decimal numeral of at most 15 digits, as the platform gives it, and NaN on every
other string. The theorems hold for every conversion. -/
def decimalToNumber (s : String) : JNum :=
  if s.toList.all Char.isDigit && 0 < s.length && s.length ≤ 15 then
    .fin (s.toList.foldl (fun n c => 10 * n + (c.toNat - 48)) 0 : Nat)
  else .nan

/-- A complete body for `POST /api/vehicles`. -/
def sampleVehicleBody : VehicleBody :=
  ⟨some "TS09XY0001", some "Baleno", some "Rao"⟩

/-- A complete body for `POST /api/bookings` that names the seeded vehicle. -/
def sampleBookingBody : BookingBody :=
  ⟨some (.num (.fin 1)), some "2026-02-01", some "oil", some "Pending"⟩

/-- The initial state with three bookings added: two for the seeded vehicle and one
whose `vehicleId` has been set to 7 by an update. -/
def sampleState : State :=
  { initialState with
    bookings :=
      [⟨1, .fin 1, "2026-01-01", "oil", "Pending"⟩,
        ⟨2, .fin 7, "2026-01-02", "tyres", "Scheduled"⟩,
        ⟨3, .fin 1, "2026-01-03", "brakes", "Completed"⟩]
    nextBookingId := 4 }

/-! ## Numbers and lists -/

theorem JNum.ofNat_injective {m n : Nat} (h : JNum.ofNat m = JNum.ofNat n) : m = n := by
  unfold JNum.ofNat at h
  injection h with h
  exact_mod_cast h

theorem JNum.ofNat_ne_nan (n : Nat) : JNum.ofNat n ≠ JNum.nan := by
  unfold JNum.ofNat
  intro h
  cases h

theorem JNum.ofNat_strictEq (n : Nat) (x : JNum) :
    (JNum.ofNat n).strictEq x = true ↔ x = JNum.ofNat n := by
  have hn := JNum.ofNat_ne_nan n
  simp only [JNum.strictEq, Bool.and_eq_true, bne_iff_ne, ne_eq, beq_iff_eq]
  constructor
  · rintro ⟨_, h⟩
    exact h.symm
  · intro h
    exact ⟨hn, h.symm⟩

theorem JNum.strictEq_ofNat (x : JNum) (n : Nat) :
    x.strictEq (JNum.ofNat n) = true ↔ x = JNum.ofNat n := by
  have hn := JNum.ofNat_ne_nan n
  simp only [JNum.strictEq, Bool.and_eq_true, bne_iff_ne, ne_eq, beq_iff_eq]
  constructor
  · rintro ⟨_, h⟩
    exact h
  · intro h
    exact ⟨by rw [h]; exact hn, h⟩

/-! ## The shape of each handler's result -/

theorem falsyText_eq_false {x : Option String} (h : falsyText x = false) :
    ∃ t, x = some t ∧ t ≠ "" := by
  cases x with
  | none => simp [falsyText] at h
  | some t => exact ⟨t, rfl, by simpa [falsyText] using h⟩

theorem falsyId_eq_false {x : Option IdValue} (h : falsyId x = false) :
    ∃ i, x = some i := by
  cases x with
  | none => simp [falsyId] at h
  | some i => exact ⟨i, rfl⟩

theorem postVehicles_cases (s : State) (body : VehicleBody) :
    ((falsyText body.regNumber = true ∨ falsyText body.model = true ∨
        falsyText body.owner = true) ∧
      postVehicles s body = (s, ⟨400, .error "All fields are required"⟩)) ∨
    ∃ regNumber model owner, body = ⟨some regNumber, some model, some owner⟩ ∧
      regNumber ≠ "" ∧ model ≠ "" ∧ owner ≠ "" ∧
      postVehicles s body =
        ({ s with
            vehicles := s.vehicles ++ [⟨s.nextVehicleId, regNumber, model, owner⟩]
            nextVehicleId := s.nextVehicleId + 1 },
          ⟨201, .vehicle ⟨s.nextVehicleId, regNumber, model, owner⟩⟩) := by
  obtain ⟨r, m, o⟩ := body
  by_cases h1 : falsyText r = true
  · left
    exact ⟨Or.inl h1, by simp [postVehicles, h1]⟩
  by_cases h2 : falsyText m = true
  · left
    exact ⟨Or.inr (Or.inl h2), by simp [postVehicles, h2]⟩
  by_cases h3 : falsyText o = true
  · left
    exact ⟨Or.inr (Or.inr h3), by simp [postVehicles, h3]⟩
  right
  obtain ⟨r, rfl, hr⟩ := falsyText_eq_false (Bool.eq_false_iff.2 h1)
  obtain ⟨m, rfl, hm⟩ := falsyText_eq_false (Bool.eq_false_iff.2 h2)
  obtain ⟨o, rfl, ho⟩ := falsyText_eq_false (Bool.eq_false_iff.2 h3)
  refine ⟨r, m, o, rfl, hr, hm, ho, ?_⟩
  simp [postVehicles, falsyText, hr, hm, ho]

theorem deleteVehicle_cases (strToNumber : String → JNum) (s : State) (idParam : String) :
    ((∀ v ∈ s.vehicles, strToNumber idParam ≠ JNum.ofNat v.id) ∧
      deleteVehicle strToNumber s idParam = (s, ⟨404, .error "Vehicle not found"⟩)) ∨
    ((∃ v ∈ s.vehicles, strToNumber idParam = JNum.ofNat v.id) ∧
      deleteVehicle strToNumber s idParam =
        ({ s with
            vehicles :=
              s.vehicles.filter (fun v => !(JNum.ofNat v.id).strictEq (strToNumber idParam))
            bookings :=
              s.bookings.filter (fun b => !b.vehicleId.strictEq (strToNumber idParam)) },
          ⟨204, .empty⟩)) := by
  by_cases h : s.vehicles.any (fun v => (JNum.ofNat v.id).strictEq (strToNumber idParam)) = true
  · right
    refine ⟨?_, by simp only [deleteVehicle, h, Bool.not_true, Bool.false_eq_true, if_false]⟩
    obtain ⟨v, hv, hx⟩ := List.any_eq_true.1 h
    exact ⟨v, hv, (JNum.ofNat_strictEq _ _).1 hx⟩
  · left
    refine ⟨?_, by simp only [deleteVehicle, Bool.eq_false_iff.2 h, Bool.not_false, if_true]⟩
    intro v hv hx
    exact h (List.any_eq_true.2 ⟨v, hv, (JNum.ofNat_strictEq _ _).2 hx⟩)

theorem deleteBooking_cases (strToNumber : String → JNum) (s : State) (idParam : String) :
    ((∀ b ∈ s.bookings, strToNumber idParam ≠ JNum.ofNat b.id) ∧
      deleteBooking strToNumber s idParam = (s, ⟨404, .error "Booking not found"⟩)) ∨
    ((∃ b ∈ s.bookings, strToNumber idParam = JNum.ofNat b.id) ∧
      deleteBooking strToNumber s idParam =
        ({ s with
            bookings :=
              s.bookings.filter (fun b => !(JNum.ofNat b.id).strictEq (strToNumber idParam)) },
          ⟨204, .empty⟩)) := by
  by_cases h : s.bookings.any (fun b => (JNum.ofNat b.id).strictEq (strToNumber idParam)) = true
  · right
    refine ⟨?_, by simp only [deleteBooking, h, Bool.not_true, Bool.false_eq_true, if_false]⟩
    obtain ⟨b, hb, hx⟩ := List.any_eq_true.1 h
    exact ⟨b, hb, (JNum.ofNat_strictEq _ _).1 hx⟩
  · left
    refine ⟨?_, by simp only [deleteBooking, Bool.eq_false_iff.2 h, Bool.not_false, if_true]⟩
    intro b hb hx
    exact h (List.any_eq_true.2 ⟨b, hb, (JNum.ofNat_strictEq _ _).2 hx⟩)

theorem postBookings_cases (strToNumber : String → JNum) (s : State) (body : BookingBody) :
    ((falsyId body.vehicleId = true ∨ falsyText body.serviceDate = true ∨
        falsyText body.description = true ∨ falsyText body.status = true) ∧
      postBookings strToNumber s body = (s, ⟨400, .error "All fields are required"⟩)) ∨
    (∃ vehicleId, body.vehicleId = some vehicleId ∧
      (∀ v ∈ s.vehicles, toNumber strToNumber vehicleId ≠ JNum.ofNat v.id) ∧
      postBookings strToNumber s body = (s, ⟨400, .error "Invalid vehicleId"⟩)) ∨
    ∃ vehicleId serviceDate description status,
      body = ⟨some vehicleId, some serviceDate, some description, some status⟩ ∧
      falsyId (some vehicleId) = false ∧ serviceDate ≠ "" ∧ description ≠ "" ∧ status ≠ "" ∧
      (∃ v ∈ s.vehicles, toNumber strToNumber vehicleId = JNum.ofNat v.id) ∧
      postBookings strToNumber s body =
        ({ s with
            bookings := s.bookings ++
              [⟨s.nextBookingId, toNumber strToNumber vehicleId, serviceDate, description, status⟩]
            nextBookingId := s.nextBookingId + 1 },
          ⟨201, .booking
            ⟨s.nextBookingId, toNumber strToNumber vehicleId, serviceDate, description,
              status⟩⟩) := by
  obtain ⟨i, d, t, u⟩ := body
  by_cases h0 : falsyId i = true
  · left
    exact ⟨Or.inl h0, by simp [postBookings, h0]⟩
  by_cases h1 : falsyText d = true
  · left
    exact ⟨Or.inr (Or.inl h1), by simp [postBookings, h1]⟩
  by_cases h2 : falsyText t = true
  · left
    exact ⟨Or.inr (Or.inr (Or.inl h2)), by simp [postBookings, h2]⟩
  by_cases h3 : falsyText u = true
  · left
    exact ⟨Or.inr (Or.inr (Or.inr h3)), by simp [postBookings, h3]⟩
  right
  have h0f := Bool.eq_false_iff.2 h0
  have h1f := Bool.eq_false_iff.2 h1
  have h2f := Bool.eq_false_iff.2 h2
  have h3f := Bool.eq_false_iff.2 h3
  obtain ⟨i, rfl⟩ := falsyId_eq_false h0f
  obtain ⟨d, rfl, hd⟩ := falsyText_eq_false h1f
  obtain ⟨t, rfl, ht⟩ := falsyText_eq_false h2f
  obtain ⟨u, rfl, hu⟩ := falsyText_eq_false h3f
  by_cases h : s.vehicles.any
      (fun v => (JNum.ofNat v.id).strictEq (toNumber strToNumber i)) = true
  · right
    refine ⟨i, d, t, u, rfl, h0f, hd, ht, hu, ?_, ?_⟩
    · obtain ⟨v, hv, hx⟩ := List.any_eq_true.1 h
      exact ⟨v, hv, (JNum.ofNat_strictEq _ _).1 hx⟩
    · simp only [postBookings, h0f, h1f, h2f, h3f, Bool.or_self, Bool.false_eq_true, if_false,
        h, Bool.not_true]
  · left
    refine ⟨i, rfl, ?_, ?_⟩
    · intro v hv hx
      exact h (List.any_eq_true.2 ⟨v, hv, (JNum.ofNat_strictEq _ _).2 hx⟩)
    · simp only [postBookings, h0f, h1f, h2f, h3f, Bool.or_self, Bool.false_eq_true, if_false,
        Bool.eq_false_iff.2 h, Bool.not_false, if_true]

theorem updateFirst_split {α : Type} (p : α → Bool) (f : α → α) (l : List α) :
    (l.find? p = none ∧ ∀ y ∈ l, p y = false) ∨
    ∃ pre x post, l = pre ++ x :: post ∧ (∀ y ∈ pre, p y = false) ∧ p x = true ∧
      l.find? p = some x ∧ updateFirst p f l = pre ++ f x :: post := by
  induction l with
  | nil => left; simp
  | cons a as ih =>
    by_cases ha : p a = true
    · right
      exact ⟨[], a, as, rfl, by simp, ha, by simp [List.find?, ha], by simp [updateFirst, ha]⟩
    · have haf := Bool.eq_false_iff.2 ha
      rcases ih with ⟨hn, hall⟩ | ⟨pre, x, post, hl, hpre, hx, hf, hu⟩
      · left
        refine ⟨by simp [List.find?, haf, hn], ?_⟩
        intro y hy
        rcases List.mem_cons.1 hy with rfl | hy
        · exact haf
        · exact hall y hy
      · right
        refine ⟨a :: pre, x, post, by simp [hl], ?_, hx, by simp [List.find?, haf, hf],
          by simp [updateFirst, haf, hu]⟩
        intro y hy
        rcases List.mem_cons.1 hy with rfl | hy
        · exact haf
        · exact hpre y hy

theorem patchVehicle_cases (strToNumber : String → JNum) (s : State) (idParam : String)
    (body : VehicleBody) :
    ((∀ v ∈ s.vehicles, strToNumber idParam ≠ JNum.ofNat v.id) ∧
      patchVehicle strToNumber s idParam body = (s, ⟨404, .error "Vehicle not found"⟩)) ∨
    ∃ pre v post, s.vehicles = pre ++ v :: post ∧
      (∀ w ∈ pre, strToNumber idParam ≠ JNum.ofNat w.id) ∧
      strToNumber idParam = JNum.ofNat v.id ∧
      patchVehicle strToNumber s idParam body =
        ({ s with vehicles := pre ++ applyVehicleBody body v :: post },
          ⟨200, .vehicle (applyVehicleBody body v)⟩) := by
  rcases updateFirst_split (fun v => (JNum.ofNat v.id).strictEq (strToNumber idParam))
    (applyVehicleBody body) s.vehicles with ⟨hn, hall⟩ | ⟨pre, x, post, hl, hpre, hx, hf, hu⟩
  · left
    refine ⟨?_, by simp only [patchVehicle, hn]⟩
    intro v hv he
    have := hall v hv
    rw [(JNum.ofNat_strictEq _ _).2 he] at this
    cases this
  · right
    refine ⟨pre, x, post, hl, ?_, (JNum.ofNat_strictEq _ _).1 hx, by
      simp only [patchVehicle, hf, hu]⟩
    intro w hw he
    have := hpre w hw
    rw [(JNum.ofNat_strictEq _ _).2 he] at this
    cases this

theorem patchBooking_cases (strToNumber : String → JNum) (s : State) (idParam : String)
    (body : BookingBody) :
    ((∀ b ∈ s.bookings, strToNumber idParam ≠ JNum.ofNat b.id) ∧
      patchBooking strToNumber s idParam body = (s, ⟨404, .error "Booking not found"⟩)) ∨
    ∃ pre b post, s.bookings = pre ++ b :: post ∧
      (∀ w ∈ pre, strToNumber idParam ≠ JNum.ofNat w.id) ∧
      strToNumber idParam = JNum.ofNat b.id ∧
      patchBooking strToNumber s idParam body =
        ({ s with bookings := pre ++ applyBookingBody strToNumber body b :: post },
          ⟨200, .booking (applyBookingBody strToNumber body b)⟩) := by
  rcases updateFirst_split (fun b => (JNum.ofNat b.id).strictEq (strToNumber idParam))
    (applyBookingBody strToNumber body) s.bookings with
    ⟨hn, hall⟩ | ⟨pre, x, post, hl, hpre, hx, hf, hu⟩
  · left
    refine ⟨?_, by simp only [patchBooking, hn]⟩
    intro b hb he
    have := hall b hb
    rw [(JNum.ofNat_strictEq _ _).2 he] at this
    cases this
  · right
    refine ⟨pre, x, post, hl, ?_, (JNum.ofNat_strictEq _ _).1 hx, by
      simp only [patchBooking, hf, hu]⟩
    intro w hw he
    have := hpre w hw
    rw [(JNum.ofNat_strictEq _ _).2 he] at this
    cases this

theorem applyVehicleBody_id (body : VehicleBody) (v : Vehicle) :
    (applyVehicleBody body v).id = v.id := by
  obtain ⟨r, m, o⟩ := body
  cases r <;> cases m <;> cases o <;> rfl

theorem applyBookingBody_id (strToNumber : String → JNum) (body : BookingBody) (b : Booking) :
    (applyBookingBody strToNumber body b).id = b.id := by
  obtain ⟨i, d, t, u⟩ := body
  cases i <;> cases d <;> cases t <;> cases u <;> rfl

/-! ## The invariant of ids and counters -/

theorem IdsBelow.sublist {l1 l2 : List Nat} {n : Nat} (h : l1.Sublist l2)
    (h2 : IdsBelow l2 n) : IdsBelow l1 n :=
  ⟨h2.1.sublist h, fun i hi => h2.2 i (h.subset hi)⟩

theorem IdsBelow.push {l : List Nat} {n : Nat} (h : IdsBelow l n) :
    IdsBelow (l ++ [n]) (n + 1) := by
  refine ⟨?_, ?_⟩
  · rw [List.pairwise_append]
    refine ⟨h.1, List.pairwise_singleton _ _, ?_⟩
    intro a ha b hb
    rw [List.mem_singleton] at hb
    rw [hb]
    exact h.2 a ha
  · intro i hi
    rcases List.mem_append.1 hi with hi | hi
    · exact Nat.lt_succ_of_lt (h.2 i hi)
    · rw [List.mem_singleton] at hi
      rw [hi]
      exact Nat.lt_succ_self n

theorem IdsBelow.nodup {l : List Nat} {n : Nat} (h : IdsBelow l n) : l.Nodup :=
  h.1.imp (fun hab => Nat.ne_of_lt hab)

theorem inv_initialState : Inv initialState := by
  refine ⟨⟨?_, ?_⟩, ⟨?_, ?_⟩⟩ <;> simp [initialState]

theorem handle_inv (strToNumber : String → JNum) (today : String) (s : State) (req : Request)
    (h : Inv s) : Inv (handle strToNumber today s req).1 := by
  cases req with
  | getRoot => exact h
  | getSummary => exact h
  | getVehicles => exact h
  | unmatched => exact h
  | getBookings upcoming =>
    simp only [handle, getBookings]
    split <;> exact h
  | postVehicles body =>
    rcases postVehicles_cases s body with ⟨_, e⟩ | ⟨r, m, o, _, _, _, _, e⟩
    · simp only [handle, e]
      exact h
    · simp only [handle, e, Inv, List.map_append, List.map_cons, List.map_nil]
      exact ⟨h.1.push, h.2⟩
  | postBookings body =>
    rcases postBookings_cases strToNumber s body with
      ⟨_, e⟩ | ⟨_, _, _, e⟩ | ⟨i, d, t, u, _, _, _, _, _, _, e⟩
    · simp only [handle, e]
      exact h
    · simp only [handle, e]
      exact h
    · simp only [handle, e, Inv, List.map_append, List.map_cons, List.map_nil]
      exact ⟨h.1, h.2.push⟩
  | deleteVehicle idParam =>
    rcases deleteVehicle_cases strToNumber s idParam with ⟨_, e⟩ | ⟨_, e⟩
    · simp only [handle, e]
      exact h
    · simp only [handle, e, Inv]
      exact ⟨h.1.sublist ((List.filter_sublist _).map _), h.2.sublist ((List.filter_sublist _).map _)⟩
  | deleteBooking idParam =>
    rcases deleteBooking_cases strToNumber s idParam with ⟨_, e⟩ | ⟨_, e⟩
    · simp only [handle, e]
      exact h
    · simp only [handle, e, Inv]
      exact ⟨h.1, h.2.sublist ((List.filter_sublist _).map _)⟩
  | patchVehicle idParam body =>
    rcases patchVehicle_cases strToNumber s idParam body with
      ⟨_, e⟩ | ⟨pre, v, post, hl, _, _, e⟩
    · simp only [handle, e]
      exact h
    · have h1 := h.1
      rw [hl] at h1
      simp only [handle, e, Inv, List.map_append, List.map_cons, applyVehicleBody_id]
      exact ⟨by simpa using h1, h.2⟩
  | patchBooking idParam body =>
    rcases patchBooking_cases strToNumber s idParam body with
      ⟨_, e⟩ | ⟨pre, b, post, hl, _, _, e⟩
    · simp only [handle, e]
      exact h
    · have h2 := h.2
      rw [hl] at h2
      simp only [handle, e, Inv, List.map_append, List.map_cons, applyBookingBody_id]
      exact ⟨h.1, by simpa using h2⟩

theorem inv_of_reachable (strToNumber : String → JNum) {s : State}
    (h : Reachable strToNumber s) : Inv s := by
  induction h with
  | init => exact inv_initialState
  | step today req _ ih => exact handle_inv strToNumber today _ req ih

theorem handle_counters (strToNumber : String → JNum) (today : String) (s : State)
    (req : Request) :
    s.nextVehicleId ≤ (handle strToNumber today s req).1.nextVehicleId ∧
    s.nextBookingId ≤ (handle strToNumber today s req).1.nextBookingId := by
  cases req with
  | getRoot => exact ⟨le_refl _, le_refl _⟩
  | getSummary => exact ⟨le_refl _, le_refl _⟩
  | getVehicles => exact ⟨le_refl _, le_refl _⟩
  | unmatched => exact ⟨le_refl _, le_refl _⟩
  | getBookings upcoming =>
    simp only [handle, getBookings]
    split <;> exact ⟨le_refl _, le_refl _⟩
  | postVehicles body =>
    rcases postVehicles_cases s body with ⟨_, e⟩ | ⟨r, m, o, _, _, _, _, e⟩ <;>
      simp [handle, e]
  | postBookings body =>
    rcases postBookings_cases strToNumber s body with
      ⟨_, e⟩ | ⟨_, _, _, e⟩ | ⟨i, d, t, u, _, _, _, _, _, _, e⟩ <;>
      simp [handle, e]
  | deleteVehicle idParam =>
    rcases deleteVehicle_cases strToNumber s idParam with ⟨_, e⟩ | ⟨_, e⟩ <;>
      simp [handle, e]
  | deleteBooking idParam =>
    rcases deleteBooking_cases strToNumber s idParam with ⟨_, e⟩ | ⟨_, e⟩ <;>
      simp [handle, e]
  | patchVehicle idParam body =>
    rcases patchVehicle_cases strToNumber s idParam body with
      ⟨_, e⟩ | ⟨pre, v, post, _, _, _, e⟩ <;>
      simp [handle, e]
  | patchBooking idParam body =>
    rcases patchBooking_cases strToNumber s idParam body with
      ⟨_, e⟩ | ⟨pre, b, post, _, _, _, e⟩ <;>
      simp [handle, e]

theorem createdVehicleId_handle (strToNumber : String → JNum) (today : String) (s : State)
    (req : Request) (i : Nat)
    (h : createdVehicleId (req, (handle strToNumber today s req).2) = some i) :
    i = s.nextVehicleId ∧
      (handle strToNumber today s req).1.nextVehicleId = s.nextVehicleId + 1 := by
  cases req with
  | postVehicles body =>
    rcases postVehicles_cases s body with ⟨_, e⟩ | ⟨r, m, o, _, _, _, _, e⟩
    · simp [handle, e, createdVehicleId] at h
    · simp only [handle, e, createdVehicleId, Option.some.injEq] at h
      simp [handle, e, h]
  | _ => simp [createdVehicleId] at h

theorem createdBookingId_handle (strToNumber : String → JNum) (today : String) (s : State)
    (req : Request) (i : Nat)
    (h : createdBookingId (req, (handle strToNumber today s req).2) = some i) :
    i = s.nextBookingId ∧
      (handle strToNumber today s req).1.nextBookingId = s.nextBookingId + 1 := by
  cases req with
  | postBookings body =>
    rcases postBookings_cases strToNumber s body with
      ⟨_, e⟩ | ⟨_, _, _, e⟩ | ⟨v, d, t, u, _, _, _, _, _, _, e⟩
    · simp [handle, e, createdBookingId] at h
    · simp [handle, e, createdBookingId] at h
    · simp only [handle, e, createdBookingId, Option.some.injEq] at h
      simp [handle, e, h]
  | _ => simp [createdBookingId] at h

theorem run_createdVehicleIds (strToNumber : String → JNum)
    (reqs : List (String × Request)) : ∀ s : State,
    ((run strToNumber s reqs).2.filterMap createdVehicleId).Pairwise (· < ·) ∧
    ∀ i ∈ (run strToNumber s reqs).2.filterMap createdVehicleId, s.nextVehicleId ≤ i := by
  induction reqs with
  | nil =>
    intro s
    simp [run]
  | cons r rest ih =>
    intro s
    obtain ⟨today, req⟩ := r
    have hrec := ih (handle strToNumber today s req).1
    have hmono := (handle_counters strToNumber today s req).1
    simp only [run]
    cases hc : createdVehicleId (req, (handle strToNumber today s req).2) with
    | none =>
      rw [List.filterMap_cons_none hc]
      exact ⟨hrec.1, fun i hi => le_trans hmono (hrec.2 i hi)⟩
    | some j =>
      obtain ⟨hj, hnext⟩ := createdVehicleId_handle strToNumber today s req j hc
      rw [List.filterMap_cons_some hc]
      refine ⟨List.pairwise_cons.2 ⟨?_, hrec.1⟩, ?_⟩
      · intro i hi
        have := hrec.2 i hi
        omega
      · intro i hi
        rcases List.mem_cons.1 hi with rfl | hi
        · omega
        · exact le_trans hmono (hrec.2 i hi)

theorem run_createdBookingIds (strToNumber : String → JNum)
    (reqs : List (String × Request)) : ∀ s : State,
    ((run strToNumber s reqs).2.filterMap createdBookingId).Pairwise (· < ·) ∧
    ∀ i ∈ (run strToNumber s reqs).2.filterMap createdBookingId, s.nextBookingId ≤ i := by
  induction reqs with
  | nil =>
    intro s
    simp [run]
  | cons r rest ih =>
    intro s
    obtain ⟨today, req⟩ := r
    have hrec := ih (handle strToNumber today s req).1
    have hmono := (handle_counters strToNumber today s req).2
    simp only [run]
    cases hc : createdBookingId (req, (handle strToNumber today s req).2) with
    | none =>
      rw [List.filterMap_cons_none hc]
      exact ⟨hrec.1, fun i hi => le_trans hmono (hrec.2 i hi)⟩
    | some j =>
      obtain ⟨hj, hnext⟩ := createdBookingId_handle strToNumber today s req j hc
      rw [List.filterMap_cons_some hc]
      refine ⟨List.pairwise_cons.2 ⟨?_, hrec.1⟩, ?_⟩
      · intro i hi
        have := hrec.2 i hi
        omega
      · intro i hi
        rcases List.mem_cons.1 hi with rfl | hi
        · omega
        · exact le_trans hmono (hrec.2 i hi)

theorem run_reachable (strToNumber : String → JNum) (reqs : List (String × Request)) :
    ∀ s : State, Reachable strToNumber s → Reachable strToNumber (run strToNumber s reqs).1 := by
  induction reqs with
  | nil =>
    intro s h
    exact h
  | cons r rest ih =>
    intro s h
    obtain ⟨today, req⟩ := r
    exact ih _ (Reachable.step today req h)

/-- C2. Id uniqueness and non-reuse. The initial state has one vehicle, of id 1, no
booking, and the counters 2 and 1. In every reachable state the ids of the vehicles
are pairwise distinct and below `nextVehicleId`, and the ids of the bookings are
pairwise distinct and below `nextBookingId`; no request decreases a counter; and over
any sequence of requests from the initial state, whose states are all reachable, no
two creates hand out the same vehicle id or the same booking id, whatever was deleted
in between. -/
theorem ids_unique_never_reused (strToNumber : String → JNum) :
    (initialState.vehicles.map (·.id) = [1] ∧ initialState.bookings = [] ∧
      initialState.nextVehicleId = 2 ∧ initialState.nextBookingId = 1) ∧
    (∀ s : State, Reachable strToNumber s →
      (s.vehicles.map (·.id)).Nodup ∧ (∀ v ∈ s.vehicles, v.id < s.nextVehicleId) ∧
      (s.bookings.map (·.id)).Nodup ∧ (∀ b ∈ s.bookings, b.id < s.nextBookingId)) ∧
    (∀ (today : String) (s : State) (req : Request),
      s.nextVehicleId ≤ (handle strToNumber today s req).1.nextVehicleId ∧
      s.nextBookingId ≤ (handle strToNumber today s req).1.nextBookingId) ∧
    (∀ reqs : List (String × Request),
      Reachable strToNumber (run strToNumber initialState reqs).1 ∧
      ((run strToNumber initialState reqs).2.filterMap createdVehicleId).Nodup ∧
      ((run strToNumber initialState reqs).2.filterMap createdBookingId).Nodup) := by
  refine ⟨⟨rfl, rfl, rfl, rfl⟩, ?_,
    fun today s req => handle_counters strToNumber today s req, ?_⟩
  · intro s hs
    have h := inv_of_reachable strToNumber hs
    refine ⟨h.1.nodup, ?_, h.2.nodup, ?_⟩
    · intro v hv
      exact h.1.2 v.id (List.mem_map_of_mem _ hv)
    · intro b hb
      exact h.2.2 b.id (List.mem_map_of_mem _ hb)
  · intro reqs
    refine ⟨run_reachable strToNumber reqs _ Reachable.init, ?_, ?_⟩
    · exact (run_createdVehicleIds strToNumber reqs initialState).1.imp
        (fun hab => Nat.ne_of_lt hab)
    · exact (run_createdBookingIds strToNumber reqs initialState).1.imp
        (fun hab => Nat.ne_of_lt hab)

/-- C2, at the state after one more vehicle and one booking have been created. -/
theorem ids_unique_never_reused_witness :
    Reachable decimalToNumber
      (handle decimalToNumber "2026-01-01"
        (handle decimalToNumber "2026-01-01" initialState (.postVehicles sampleVehicleBody)).1
        (.postBookings sampleBookingBody)).1 ∧
    ((handle decimalToNumber "2026-01-01"
        (handle decimalToNumber "2026-01-01" initialState (.postVehicles sampleVehicleBody)).1
        (.postBookings sampleBookingBody)).1.vehicles.map (·.id)).Nodup ∧
    ((handle decimalToNumber "2026-01-01"
        (handle decimalToNumber "2026-01-01" initialState (.postVehicles sampleVehicleBody)).1
        (.postBookings sampleBookingBody)).1.bookings.map (·.id)).Nodup :=
  ⟨Reachable.step "2026-01-01" (.postBookings sampleBookingBody)
      (Reachable.step "2026-01-01" (.postVehicles sampleVehicleBody) Reachable.init),
    ((ids_unique_never_reused decimalToNumber).2.1 _
      (Reachable.step "2026-01-01" (.postBookings sampleBookingBody)
        (Reachable.step "2026-01-01" (.postVehicles sampleVehicleBody) Reachable.init))).1,
    ((ids_unique_never_reused decimalToNumber).2.1 _
      (Reachable.step "2026-01-01" (.postBookings sampleBookingBody)
        (Reachable.step "2026-01-01" (.postVehicles sampleVehicleBody) Reachable.init))).2.2.1⟩

/-! ## Deleting a vehicle -/

/-- C1. Cascade delete: when the id of the request is the id of a vehicle `v` of the
list, `DELETE /api/vehicles/:id` answers 204, the vehicle list becomes the old one
without the vehicles of that id, and the booking list becomes the old one without the
bookings whose `vehicleId` is that id: none with that `vehicleId` remains, each one
with another `vehicleId` stays, and the survivors keep their order. -/
theorem deleteVehicle_cascade (strToNumber : String → JNum) (s : State) (idParam : String)
    (v : Vehicle) (hv : v ∈ s.vehicles) (hid : strToNumber idParam = JNum.ofNat v.id) :
    (deleteVehicle strToNumber s idParam).2 = ⟨204, .empty⟩ ∧
    (deleteVehicle strToNumber s idParam).1.vehicles
      = s.vehicles.filter (fun w => decide (w.id ≠ v.id)) ∧
    (deleteVehicle strToNumber s idParam).1.bookings
      = s.bookings.filter (fun b => decide (b.vehicleId ≠ JNum.ofNat v.id)) ∧
    (∀ b ∈ (deleteVehicle strToNumber s idParam).1.bookings, b.vehicleId ≠ JNum.ofNat v.id) ∧
    (∀ b ∈ s.bookings, b.vehicleId ≠ JNum.ofNat v.id →
      b ∈ (deleteVehicle strToNumber s idParam).1.bookings) ∧
    (deleteVehicle strToNumber s idParam).1.bookings.Sublist s.bookings := by
  have hex : s.vehicles.any (fun w => (JNum.ofNat w.id).strictEq (strToNumber idParam)) = true := by
    rw [List.any_eq_true]
    exact ⟨v, hv, (JNum.ofNat_strictEq _ _).2 hid⟩
  have hvs : s.vehicles.filter (fun w => !(JNum.ofNat w.id).strictEq (strToNumber idParam))
      = s.vehicles.filter (fun w => decide (w.id ≠ v.id)) := by
    apply List.filter_congr
    intro w _
    rw [hid, Bool.eq_iff_iff]
    simp only [Bool.not_eq_true', Bool.eq_false_iff, ne_eq, JNum.ofNat_strictEq,
      decide_eq_true_eq]
    constructor
    · intro h e
      exact h (by rw [e])
    · intro h e
      exact h (JNum.ofNat_injective e).symm
  have hbs : s.bookings.filter (fun b => !b.vehicleId.strictEq (strToNumber idParam))
      = s.bookings.filter (fun b => decide (b.vehicleId ≠ JNum.ofNat v.id)) := by
    apply List.filter_congr
    intro b _
    rw [hid, Bool.eq_iff_iff]
    simp only [Bool.not_eq_true', Bool.eq_false_iff, ne_eq, JNum.strictEq_ofNat,
      decide_eq_true_eq]
  have hst : deleteVehicle strToNumber s idParam =
      ({ s with
          vehicles := s.vehicles.filter (fun w => decide (w.id ≠ v.id))
          bookings := s.bookings.filter (fun b => decide (b.vehicleId ≠ JNum.ofNat v.id)) },
        ⟨204, .empty⟩) := by
    simp only [deleteVehicle, hex, Bool.not_true, Bool.false_eq_true, if_false, hvs, hbs]
  rw [hst]
  refine ⟨rfl, rfl, rfl, ?_, ?_, List.filter_sublist _⟩
  · intro b hb
    simpa using (List.mem_filter.1 hb).2
  · intro b hb hne
    exact List.mem_filter.2 ⟨hb, by simpa using hne⟩

/-- C1, at the seeded vehicle with two bookings for it and one for another id. -/
theorem deleteVehicle_cascade_witness :
    (deleteVehicle decimalToNumber sampleState "1").2 = ⟨204, .empty⟩ ∧
    (deleteVehicle decimalToNumber sampleState "1").1.vehicles = [] ∧
    (deleteVehicle decimalToNumber sampleState "1").1.bookings
      = [⟨2, .fin 7, "2026-01-02", "tyres", "Scheduled"⟩] :=
  ⟨(deleteVehicle_cascade decimalToNumber sampleState "1"
      ⟨1, "AP01AB1234", "Swift", "Reddy"⟩ (by decide) (by decide)).1,
    by decide, by decide⟩

/-! ## Creating a vehicle -/

/-- C3. Create vehicle, success case: in a reachable state, with `regNumber`, `model`
and `owner` all non-empty, `POST /api/vehicles` answers 201 with the record whose id
is the old `nextVehicleId`; no vehicle of the old list has that id; the record is
appended at the end of the list, which a following list call returns; `nextVehicleId`
grows by one; the bookings and `nextBookingId` stay. -/
theorem postVehicles_success (strToNumber : String → JNum) (s : State)
    (hs : Reachable strToNumber s) (regNumber model owner : String)
    (hr : regNumber ≠ "") (hm : model ≠ "") (ho : owner ≠ "") :
    postVehicles s ⟨some regNumber, some model, some owner⟩ =
      ({ vehicles := s.vehicles ++ [⟨s.nextVehicleId, regNumber, model, owner⟩]
         bookings := s.bookings
         nextVehicleId := s.nextVehicleId + 1
         nextBookingId := s.nextBookingId },
        ⟨201, .vehicle ⟨s.nextVehicleId, regNumber, model, owner⟩⟩) ∧
    (∀ v ∈ s.vehicles, v.id ≠ s.nextVehicleId) ∧
    (getVehicles (postVehicles s ⟨some regNumber, some model, some owner⟩).1).2 =
      ⟨200, .vehicles (s.vehicles ++ [⟨s.nextVehicleId, regNumber, model, owner⟩])⟩ := by
  have e : postVehicles s ⟨some regNumber, some model, some owner⟩ =
      ({ vehicles := s.vehicles ++ [⟨s.nextVehicleId, regNumber, model, owner⟩]
         bookings := s.bookings
         nextVehicleId := s.nextVehicleId + 1
         nextBookingId := s.nextBookingId },
        ⟨201, .vehicle ⟨s.nextVehicleId, regNumber, model, owner⟩⟩) := by
    simp [postVehicles, falsyText, hr, hm, ho]
  refine ⟨e, ?_, by rw [e]; rfl⟩
  intro v hv
  exact Nat.ne_of_lt ((inv_of_reachable strToNumber hs).1.2 v.id (List.mem_map_of_mem _ hv))

/-- C3, at the initial state: the new vehicle gets id 2. -/
theorem postVehicles_success_witness :
    postVehicles initialState ⟨some "TS09XY0001", some "Baleno", some "Rao"⟩ =
      ({ vehicles :=
          [⟨1, "AP01AB1234", "Swift", "Reddy"⟩, ⟨2, "TS09XY0001", "Baleno", "Rao"⟩]
         bookings := []
         nextVehicleId := 3
         nextBookingId := 1 },
        ⟨201, .vehicle ⟨2, "TS09XY0001", "Baleno", "Rao"⟩⟩) :=
  (postVehicles_success decimalToNumber initialState Reachable.init
    "TS09XY0001" "Baleno" "Rao" (by decide) (by decide) (by decide)).1

/-- C6. Create vehicle with a missing field: when one of `regNumber`, `model`,
`owner` is absent or the empty string, `POST /api/vehicles` answers 400 with the
error body and the state, `nextVehicleId` included, is the one before. -/
theorem postVehicles_missing_field (s : State) (body : VehicleBody)
    (h : (body.regNumber = none ∨ body.regNumber = some "") ∨
      (body.model = none ∨ body.model = some "") ∨
      (body.owner = none ∨ body.owner = some "")) :
    postVehicles s body = (s, ⟨400, .error "All fields are required"⟩) := by
  rcases postVehicles_cases s body with ⟨_, e⟩ | ⟨r, m, o, hb, hr, hm, ho, _⟩
  · exact e
  · subst hb
    simp [hr, hm, ho] at h

/-- C6, at the initial state with an empty `model`. -/
theorem postVehicles_missing_field_witness :
    postVehicles initialState ⟨some "TS09XY0001", some "", some "Rao"⟩ =
      (initialState, ⟨400, .error "All fields are required"⟩) :=
  postVehicles_missing_field initialState ⟨some "TS09XY0001", some "", some "Rao"⟩
    (Or.inr (Or.inl (Or.inr rfl)))

/-! ## Creating a booking -/

/-- C4. Create booking, success case: whenever `POST /api/bookings` answers 201, the
body has all four fields, the Number of its `vehicleId` is the id of a vehicle of the
list, the answer is the record with the old `nextBookingId` as id, that Number as
`vehicleId` and the three text fields as supplied, the record is appended at the end
of the booking list, `nextBookingId` grows by one, and the vehicles and
`nextVehicleId` stay. -/
theorem postBookings_created (strToNumber : String → JNum) (s : State) (body : BookingBody)
    (h : (postBookings strToNumber s body).2.status = 201) :
    ∃ vehicleId serviceDate description status,
      body = ⟨some vehicleId, some serviceDate, some description, some status⟩ ∧
      (∃ v ∈ s.vehicles, toNumber strToNumber vehicleId = JNum.ofNat v.id) ∧
      postBookings strToNumber s body =
        ({ vehicles := s.vehicles
           bookings := s.bookings ++
            [⟨s.nextBookingId, toNumber strToNumber vehicleId, serviceDate, description, status⟩]
           nextVehicleId := s.nextVehicleId
           nextBookingId := s.nextBookingId + 1 },
          ⟨201, .booking
            ⟨s.nextBookingId, toNumber strToNumber vehicleId, serviceDate, description,
              status⟩⟩) := by
  rcases postBookings_cases strToNumber s body with
    ⟨_, e⟩ | ⟨_, _, _, e⟩ | ⟨i, d, t, u, hb, _, _, _, _, hv, e⟩
  · rw [e] at h
    simp at h
  · rw [e] at h
    simp at h
  · exact ⟨i, d, t, u, hb, hv, e⟩

/-- C4, at the initial state with a booking for the seeded vehicle, named by the
string "1". -/
theorem postBookings_created_witness :
    (postBookings decimalToNumber initialState
      ⟨some (.str "1"), some "2026-02-01", some "oil", some "Pending"⟩).2.status = 201 ∧
    ∃ vehicleId serviceDate description status,
      (⟨some (.str "1"), some "2026-02-01", some "oil", some "Pending"⟩ : BookingBody)
        = ⟨some vehicleId, some serviceDate, some description, some status⟩ ∧
      (∃ v ∈ initialState.vehicles, toNumber decimalToNumber vehicleId = JNum.ofNat v.id) ∧
      postBookings decimalToNumber initialState
          ⟨some (.str "1"), some "2026-02-01", some "oil", some "Pending"⟩ =
        ({ vehicles := initialState.vehicles
           bookings := initialState.bookings ++
            [⟨initialState.nextBookingId, toNumber decimalToNumber vehicleId, serviceDate,
              description, status⟩]
           nextVehicleId := initialState.nextVehicleId
           nextBookingId := initialState.nextBookingId + 1 },
          ⟨201, .booking
            ⟨initialState.nextBookingId, toNumber decimalToNumber vehicleId, serviceDate,
              description, status⟩⟩) :=
  ⟨by decide,
    postBookings_created decimalToNumber initialState
      ⟨some (.str "1"), some "2026-02-01", some "oil", some "Pending"⟩ (by decide)⟩

/-- C5. Create booking with an unknown vehicle: when the Number of the `vehicleId` of
the body is the id of no vehicle of the list, `POST /api/bookings` answers 400 with an
error body and the state is the one before. -/
theorem postBookings_unknown_vehicle (strToNumber : String → JNum) (s : State)
    (body : BookingBody)
    (h : ∀ vehicleId, body.vehicleId = some vehicleId →
      ∀ v ∈ s.vehicles, toNumber strToNumber vehicleId ≠ JNum.ofNat v.id) :
    (postBookings strToNumber s body).2.status = 400 ∧
    (∃ text, (postBookings strToNumber s body).2.body = .error text) ∧
    (postBookings strToNumber s body).1 = s := by
  rcases postBookings_cases strToNumber s body with
    ⟨_, e⟩ | ⟨_, _, _, e⟩ | ⟨i, d, t, u, hb, _, _, _, _, ⟨v, hv, hx⟩, _⟩
  · rw [e]
    exact ⟨rfl, ⟨_, rfl⟩, rfl⟩
  · rw [e]
    exact ⟨rfl, ⟨_, rfl⟩, rfl⟩
  · subst hb
    exact absurd hx (h i rfl v hv)

/-- C5, at the initial state with `vehicleId` 5: the answer is "Invalid vehicleId". -/
theorem postBookings_unknown_vehicle_witness :
    postBookings decimalToNumber initialState
        ⟨some (.num (.fin 5)), some "2026-02-01", some "oil", some "Pending"⟩ =
      (initialState, ⟨400, .error "Invalid vehicleId"⟩) ∧
    (postBookings decimalToNumber initialState
        ⟨some (.num (.fin 5)), some "2026-02-01", some "oil", some "Pending"⟩).1
      = initialState :=
  ⟨by decide,
    (postBookings_unknown_vehicle decimalToNumber initialState
      ⟨some (.num (.fin 5)), some "2026-02-01", some "oil", some "Pending"⟩
      (by
        intro vehicleId hv v hm
        cases hv
        simp only [initialState, List.mem_singleton] at hm
        subst hm
        decide)).2.2⟩

/-! ## Listing bookings -/

theorem unitsLt_iff_lex (xs : List Nat) :
    ∀ ys : List Nat, unitsLt xs ys = true ↔ List.Lex (· < ·) xs ys := by
  induction xs with
  | nil =>
    intro ys
    cases ys with
    | nil => simp [unitsLt]
    | cons y ys => simpa [unitsLt] using List.Lex.nil
  | cons x xs ih =>
    intro ys
    cases ys with
    | nil => simp [unitsLt]
    | cons y ys =>
      rcases Nat.lt_trichotomy x y with hlt | heq | hgt
      · simpa [unitsLt, hlt] using List.Lex.rel hlt
      · subst heq
        simp only [unitsLt, Nat.lt_irrefl, if_false, ih ys]
        exact List.Lex.cons_iff.symm
      · have hn : ¬ x < y := Nat.lt_asymm hgt
        simp only [unitsLt, hn, hgt, if_false, if_true, Bool.false_eq_true, false_iff]
        intro h
        cases h with
        | cons h => exact Nat.lt_irrefl _ hgt
        | rel h => exact hn h

theorem strGe_iff_lexGe (a b : String) : strGe a b = true ↔ LexGe a b := by
  simp only [strGe, LexGe, Bool.not_eq_true', Bool.eq_false_iff, ne_eq, unitsLt_iff_lex]

theorem mem_getUpcomingBookings (today : String) (bookings : List Booking) (b : Booking) :
    b ∈ getUpcomingBookings today bookings ↔ b ∈ bookings ∧ IsUpcoming today b := by
  simp only [getUpcomingBookings, List.mem_filter, Bool.and_eq_true, Bool.or_eq_true,
    beq_iff_eq, strGe_iff_lexGe, IsUpcoming]

/-- C7. Upcoming filter: with `upcoming` equal to "true", `GET /api/bookings` leaves the
state and answers 200 with the sub-list, in the original order and with each booking
as often as before, of the bookings whose `serviceDate` is lexicographically greater
than or equal to `today` and whose `status` is "Scheduled" or "Pending"; a booking is in
the answer exactly when it is in the list and both conditions hold; with another value
of the flag, or none, the answer is the whole booking list. -/
theorem getBookings_upcoming (today : String) (s : State) :
    (∀ p : Booking → Bool, (∀ b, p b = true ↔ IsUpcoming today b) →
      getBookings today s (some "true") = (s, ⟨200, .bookings (s.bookings.filter p)⟩)) ∧
    (∀ body, (getBookings today s (some "true")).2.body = .bookings body →
      body.Sublist s.bookings ∧
      (∀ b, b ∈ body ↔
        b ∈ s.bookings ∧ LexGe b.serviceDate today ∧
          (b.status = "Scheduled" ∨ b.status = "Pending")) ∧
      (∀ b ∈ body, body.count b = s.bookings.count b)) ∧
    (∀ upcoming : Option String, upcoming ≠ some "true" →
      getBookings today s upcoming = (s, ⟨200, .bookings s.bookings⟩)) := by
  have e : getBookings today s (some "true") =
      (s, ⟨200, .bookings (getUpcomingBookings today s.bookings)⟩) := by
    simp [getBookings]
  refine ⟨?_, ?_, ?_⟩
  · intro p hp
    rw [e]
    have : getUpcomingBookings today s.bookings = s.bookings.filter p := by
      apply List.filter_congr
      intro b _
      rw [Bool.eq_iff_iff, hp b]
      simp only [Bool.and_eq_true, Bool.or_eq_true, beq_iff_eq, strGe_iff_lexGe, IsUpcoming]
    rw [this]
  · intro body hbody
    rw [e] at hbody
    simp only [ResBody.bookings.injEq] at hbody
    subst hbody
    refine ⟨List.filter_sublist _, ?_, ?_⟩
    · intro b
      rw [mem_getUpcomingBookings]
      rfl
    · intro b hb
      have hb2 := (List.mem_filter.1 hb).2
      exact List.count_filter (l := s.bookings) hb2
  · intro upcoming hne
    simp [getBookings, hne]

/-- C7, for the sample bookings on 2026-01-02: the booking of the day before and the
completed one are left out. -/
theorem getBookings_upcoming_witness :
    getBookings "2026-01-02" sampleState (some "true") =
      (sampleState, ⟨200, .bookings [⟨2, .fin 7, "2026-01-02", "tyres", "Scheduled"⟩]⟩) ∧
    getBookings "2026-01-02" sampleState (some "yes") =
      (sampleState, ⟨200, .bookings sampleState.bookings⟩) :=
  ⟨by decide, (getBookings_upcoming "2026-01-02" sampleState).2.2 (some "yes") (by decide)⟩

/-! ## Partial updates -/

theorem applyBookingBody_fields (strToNumber : String → JNum) (body : BookingBody)
    (b : Booking) :
    (applyBookingBody strToNumber body b).vehicleId =
      (match body.vehicleId with
        | some vehicleId => toNumber strToNumber vehicleId
        | none => b.vehicleId) ∧
    (applyBookingBody strToNumber body b).serviceDate =
      (match body.serviceDate with
        | some serviceDate => serviceDate
        | none => b.serviceDate) ∧
    (applyBookingBody strToNumber body b).description =
      (match body.description with
        | some description => description
        | none => b.description) ∧
    (applyBookingBody strToNumber body b).status =
      (match body.status with
        | some status => status
        | none => b.status) := by
  obtain ⟨i, d, t, u⟩ := body
  cases i <;> cases d <;> cases t <;> cases u <;> exact ⟨rfl, rfl, rfl, rfl⟩

theorem applyVehicleBody_fields (body : VehicleBody) (v : Vehicle) :
    (applyVehicleBody body v).regNumber =
      (match body.regNumber with
        | some regNumber => regNumber
        | none => v.regNumber) ∧
    (applyVehicleBody body v).model =
      (match body.model with
        | some model => model
        | none => v.model) ∧
    (applyVehicleBody body v).owner =
      (match body.owner with
        | some owner => owner
        | none => v.owner) := by
  obtain ⟨r, m, o⟩ := body
  cases r <;> cases m <;> cases o <;> exact ⟨rfl, rfl, rfl⟩

theorem others_ne_of_nodup {α : Type} (g : α → Nat) (pre post : List α) (x : α)
    (h : ((pre ++ x :: post).map g).Nodup) : ∀ w ∈ pre ++ post, g w ≠ g x := by
  rw [List.map_append, List.map_cons] at h
  have h2 := List.nodup_middle.1 h
  rw [List.nodup_cons] at h2
  intro w hw he
  apply h2.1
  rw [← he, ← List.map_append]
  exact List.mem_map_of_mem g hw

/-- C8. Partial update of a booking: when the id of the request is the id of a
booking, `PATCH /api/bookings/:id` answers 200 with the updated booking and replaces,
at its place in the list, the first booking `b` of that id (the only one when ids are
distinct) by a booking of the same id in which `serviceDate`, `description` and
`status` are the supplied value where the body has the field and the old value where
it has not, and `vehicleId` is the Number of the supplied value or the old value; the
bookings before and after it, the vehicles and both counters stay. -/
theorem patchBooking_supplied_fields (strToNumber : String → JNum) (s : State) (idParam : String)
    (body : BookingBody) (h : ∃ b ∈ s.bookings, strToNumber idParam = JNum.ofNat b.id) :
    ∃ (pre : List Booking) (b : Booking) (post : List Booking) (updated : Booking),
      s.bookings = pre ++ b :: post ∧
      strToNumber idParam = JNum.ofNat b.id ∧
      (∀ w ∈ pre, strToNumber idParam ≠ JNum.ofNat w.id) ∧
      ((s.bookings.map (·.id)).Nodup → ∀ w ∈ pre ++ post, w.id ≠ b.id) ∧
      updated.id = b.id ∧
      updated.vehicleId =
        (match body.vehicleId with
          | some vehicleId => toNumber strToNumber vehicleId
          | none => b.vehicleId) ∧
      updated.serviceDate =
        (match body.serviceDate with
          | some serviceDate => serviceDate
          | none => b.serviceDate) ∧
      updated.description =
        (match body.description with
          | some description => description
          | none => b.description) ∧
      updated.status =
        (match body.status with
          | some status => status
          | none => b.status) ∧
      patchBooking strToNumber s idParam body =
        ({ vehicles := s.vehicles
           bookings := pre ++ updated :: post
           nextVehicleId := s.nextVehicleId
           nextBookingId := s.nextBookingId },
          ⟨200, .booking updated⟩) := by
  rcases patchBooking_cases strToNumber s idParam body with
    ⟨hno, _⟩ | ⟨pre, b, post, hl, hpre, hb, e⟩
  · obtain ⟨b, hb, hx⟩ := h
    exact absurd hx (hno b hb)
  · have hf := applyBookingBody_fields strToNumber body b
    refine ⟨pre, b, post, applyBookingBody strToNumber body b, hl, hb, hpre, ?_,
      applyBookingBody_id strToNumber body b, hf.1, hf.2.1, hf.2.2.1, hf.2.2.2, e⟩
    intro hnd
    rw [hl] at hnd
    exact others_ne_of_nodup (·.id) pre post b hnd

/-- C8, on the second of the sample bookings with only `status` supplied. -/
theorem patchBooking_supplied_fields_witness :
    patchBooking decimalToNumber sampleState "2" ⟨none, none, none, some "Completed"⟩ =
      ({ sampleState with
          bookings :=
            [⟨1, .fin 1, "2026-01-01", "oil", "Pending"⟩,
              ⟨2, .fin 7, "2026-01-02", "tyres", "Completed"⟩,
              ⟨3, .fin 1, "2026-01-03", "brakes", "Completed"⟩] },
        ⟨200, .booking ⟨2, .fin 7, "2026-01-02", "tyres", "Completed"⟩⟩) ∧
    ∃ (pre : List Booking) (b : Booking) (post : List Booking),
      sampleState.bookings = pre ++ b :: post ∧ decimalToNumber "2" = JNum.ofNat b.id :=
  ⟨by decide,
    (patchBooking_supplied_fields decimalToNumber sampleState "2" ⟨none, none, none, some "Completed"⟩
      ⟨⟨2, .fin 7, "2026-01-02", "tyres", "Scheduled"⟩, by decide, by decide⟩).elim
      (fun pre hpre => hpre.elim (fun b hb => hb.elim (fun post hpost =>
        hpost.elim (fun _ hu => ⟨pre, b, post, hu.1, hu.2.1⟩))))⟩

/-- C10. Partial update of a vehicle: when the id of the request is the id of a
vehicle, `PATCH /api/vehicles/:id` answers 200 with the updated vehicle and replaces,
at its place in the list, the first vehicle `v` of that id (the only one when ids are
distinct) by a vehicle of the same id in which each of `regNumber`, `model`, `owner`
is the supplied value where the body has the field, the empty string included, and
the old value where it has not; the vehicles before and after it, the bookings and
both counters stay. When no vehicle has that id the answer is 404 and the state is the
one before. -/
theorem patchVehicle_supplied_fields (strToNumber : String → JNum) (s : State) (idParam : String)
    (body : VehicleBody) :
    ((∃ v ∈ s.vehicles, strToNumber idParam = JNum.ofNat v.id) →
      ∃ (pre : List Vehicle) (v : Vehicle) (post : List Vehicle) (updated : Vehicle),
        s.vehicles = pre ++ v :: post ∧
        strToNumber idParam = JNum.ofNat v.id ∧
        (∀ w ∈ pre, strToNumber idParam ≠ JNum.ofNat w.id) ∧
        ((s.vehicles.map (·.id)).Nodup → ∀ w ∈ pre ++ post, w.id ≠ v.id) ∧
        updated.id = v.id ∧
        updated.regNumber =
          (match body.regNumber with
            | some regNumber => regNumber
            | none => v.regNumber) ∧
        updated.model =
          (match body.model with
            | some model => model
            | none => v.model) ∧
        updated.owner =
          (match body.owner with
            | some owner => owner
            | none => v.owner) ∧
        patchVehicle strToNumber s idParam body =
          ({ vehicles := pre ++ updated :: post
             bookings := s.bookings
             nextVehicleId := s.nextVehicleId
             nextBookingId := s.nextBookingId },
            ⟨200, .vehicle updated⟩)) ∧
    ((∀ v ∈ s.vehicles, strToNumber idParam ≠ JNum.ofNat v.id) →
      patchVehicle strToNumber s idParam body = (s, ⟨404, .error "Vehicle not found"⟩)) := by
  rcases patchVehicle_cases strToNumber s idParam body with
    ⟨hno, e⟩ | ⟨pre, v, post, hl, hpre, hv, e⟩
  · refine ⟨?_, fun _ => e⟩
    rintro ⟨v, hv, hx⟩
    exact absurd hx (hno v hv)
  · refine ⟨fun _ => ?_, fun hno => ?_⟩
    · have hf := applyVehicleBody_fields body v
      refine ⟨pre, v, post, applyVehicleBody body v, hl, hv, hpre, ?_,
        applyVehicleBody_id body v, hf.1, hf.2.1, hf.2.2, e⟩
      intro hnd
      rw [hl] at hnd
      exact others_ne_of_nodup (·.id) pre post v hnd
    · exact absurd hv (hno v (by rw [hl]; simp))

/-- C10, on the seeded vehicle with an empty `model` supplied, and on an id that no
vehicle has. -/
theorem patchVehicle_supplied_fields_witness :
    patchVehicle decimalToNumber initialState "1" ⟨none, some "", some "Rao"⟩ =
      ({ initialState with vehicles := [⟨1, "AP01AB1234", "", "Rao"⟩] },
        ⟨200, .vehicle ⟨1, "AP01AB1234", "", "Rao"⟩⟩) ∧
    (∃ (pre : List Vehicle) (v : Vehicle) (post : List Vehicle),
      initialState.vehicles = pre ++ v :: post ∧ decimalToNumber "1" = JNum.ofNat v.id) ∧
    patchVehicle decimalToNumber initialState "9" ⟨none, some "", some "Rao"⟩ =
      (initialState, ⟨404, .error "Vehicle not found"⟩) :=
  ⟨by decide,
    ((patchVehicle_supplied_fields decimalToNumber initialState "1" ⟨none, some "", some "Rao"⟩).1
      ⟨⟨1, "AP01AB1234", "Swift", "Reddy"⟩, by decide, by decide⟩).elim
      (fun pre hpre => hpre.elim (fun v hv => hv.elim (fun post hpost =>
        hpost.elim (fun _ hu => ⟨pre, v, post, hu.1, hu.2.1⟩)))),
    (patchVehicle_supplied_fields decimalToNumber initialState "9" ⟨none, some "", some "Rao"⟩).2
      (by
        intro v hm
        simp only [initialState, List.mem_singleton] at hm
        subst hm
        decide)⟩

/-! ## Deleting what is not there -/

/-- C9. Delete of a nonexistent id: when the id of the request is the id of no
vehicle, `DELETE /api/vehicles/:id` answers 404 and the state is the one before, the
bookings whose `vehicleId` is that id included; when it is the id of no booking,
`DELETE /api/bookings/:id` answers 404 and the state is the one before. -/
theorem delete_nonexistent (strToNumber : String → JNum) (s : State) (idParam : String) :
    ((∀ v ∈ s.vehicles, strToNumber idParam ≠ JNum.ofNat v.id) →
      deleteVehicle strToNumber s idParam = (s, ⟨404, .error "Vehicle not found"⟩)) ∧
    ((∀ b ∈ s.bookings, strToNumber idParam ≠ JNum.ofNat b.id) →
      deleteBooking strToNumber s idParam = (s, ⟨404, .error "Booking not found"⟩)) := by
  refine ⟨fun h => ?_, fun h => ?_⟩
  · rcases deleteVehicle_cases strToNumber s idParam with ⟨_, e⟩ | ⟨⟨v, hv, hx⟩, _⟩
    · exact e
    · exact absurd hx (h v hv)
  · rcases deleteBooking_cases strToNumber s idParam with ⟨_, e⟩ | ⟨⟨b, hb, hx⟩, _⟩
    · exact e
    · exact absurd hx (h b hb)

/-- C9, on the sample state: no vehicle has id 7, though a booking names it, and no
booking has id 9. -/
theorem delete_nonexistent_witness :
    deleteVehicle decimalToNumber sampleState "7" =
      (sampleState, ⟨404, .error "Vehicle not found"⟩) ∧
    deleteBooking decimalToNumber sampleState "9" =
      (sampleState, ⟨404, .error "Booking not found"⟩) :=
  ⟨(delete_nonexistent decimalToNumber sampleState "7").1
      (by
        intro v hm
        simp only [sampleState, initialState, List.mem_singleton] at hm
        subst hm
        decide),
    (delete_nonexistent decimalToNumber sampleState "9").2 (by decide)⟩

/-! ## Dates as strings -/

theorem digitChar_toNat (n : Nat) : (digitChar n).toNat = 48 + n % 10 := by
  have h : n % 10 < 10 := Nat.mod_lt _ (by decide)
  unfold digitChar
  generalize n % 10 = k at h
  interval_cases k <;> rfl

theorem utf16_digitChar (n : Nat) : utf16 (digitChar n) = [48 + n % 10] := by
  have h : n % 10 < 10 := Nat.mod_lt _ (by decide)
  have hlt : 48 + n % 10 < 0x10000 := by omega
  simp only [utf16, digitChar_toNat, hlt, if_true]

theorem codeUnits_iso (d : CalendarDate) :
    codeUnits d.iso =
      [48 + d.year / 1000 % 10, 48 + d.year / 100 % 10, 48 + d.year / 10 % 10,
        48 + d.year % 10, 45, 48 + d.month / 10 % 10, 48 + d.month % 10, 45,
        48 + d.day / 10 % 10, 48 + d.day % 10] := by
  have hdash : utf16 '-' = [45] := by decide
  simp only [codeUnits, CalendarDate.iso, String.toList, List.flatMap_cons, List.flatMap_nil,
    utf16_digitChar, hdash, List.cons_append, List.nil_append, List.append_nil]

theorem unitsLt_cons (x y : Nat) (xs ys : List Nat) :
    unitsLt (x :: xs) (y :: ys) = true ↔ x < y ∨ (x = y ∧ unitsLt xs ys = true) := by
  rcases Nat.lt_trichotomy x y with h | h | h
  · simp [unitsLt, h]
  · subst h
    simp [unitsLt]
  · have hn : ¬ x < y := Nat.lt_asymm h
    have hne : x ≠ y := Nat.ne_of_gt h
    simp [unitsLt, h, hn, hne]

theorem lex_two_digits (n1 n2 : Nat) (h1 : n1 ≤ 99) (h2 : n2 ≤ 99) (R : Prop) :
    (48 + n1 / 10 % 10 < 48 + n2 / 10 % 10 ∨ (48 + n1 / 10 % 10 = 48 + n2 / 10 % 10 ∧
      (48 + n1 % 10 < 48 + n2 % 10 ∨ (48 + n1 % 10 = 48 + n2 % 10 ∧ R)))) ↔
    (n1 < n2 ∨ (n1 = n2 ∧ R)) := by
  by_cases hR : R
  · simp only [hR, and_true]
    omega
  · simp only [hR, and_false, or_false]
    omega

theorem lex_four_digits (y1 y2 : Nat) (h1 : y1 ≤ 9999) (h2 : y2 ≤ 9999) (R : Prop) :
    (48 + y1 / 1000 % 10 < 48 + y2 / 1000 % 10 ∨ (48 + y1 / 1000 % 10 = 48 + y2 / 1000 % 10 ∧
      (48 + y1 / 100 % 10 < 48 + y2 / 100 % 10 ∨ (48 + y1 / 100 % 10 = 48 + y2 / 100 % 10 ∧
        (48 + y1 / 10 % 10 < 48 + y2 / 10 % 10 ∨ (48 + y1 / 10 % 10 = 48 + y2 / 10 % 10 ∧
          (48 + y1 % 10 < 48 + y2 % 10 ∨ (48 + y1 % 10 = 48 + y2 % 10 ∧ R)))))))) ↔
    (y1 < y2 ∨ (y1 = y2 ∧ R)) := by
  have e1 : y1 / 10 / 10 = y1 / 100 := Nat.div_div_eq_div_mul y1 10 10
  have e2 : y1 / 100 / 10 = y1 / 1000 := Nat.div_div_eq_div_mul y1 100 10
  have e3 : y2 / 10 / 10 = y2 / 100 := Nat.div_div_eq_div_mul y2 10 10
  have e4 : y2 / 100 / 10 = y2 / 1000 := Nat.div_div_eq_div_mul y2 100 10
  have t1 : y1 / 1000 / 10 = 0 := by omega
  have t2 : y2 / 1000 / 10 = 0 := by omega
  by_cases hR : R
  · simp only [hR, and_true]
    omega
  · simp only [hR, and_false, or_false]
    omega

theorem lex_dash (R : Prop) : ((45 : Nat) < 45 ∨ (True ∧ R)) ↔ R := by
  simp

theorem unitsLt_iso (a b : CalendarDate) (ha : a.WellFormed) (hb : b.WellFormed) :
    unitsLt (codeUnits a.iso) (codeUnits b.iso) = true ↔ ¬ a.OnOrAfter b := by
  obtain ⟨y1, m1, d1⟩ := a
  obtain ⟨y2, m2, d2⟩ := b
  simp only [CalendarDate.WellFormed] at ha hb
  have hnil : unitsLt [] [] = false := rfl
  rw [codeUnits_iso, codeUnits_iso]
  simp only [unitsLt_cons]
  rw [lex_four_digits y1 y2 ha.1 hb.1, lex_dash, lex_two_digits m1 m2 (by omega) (by omega),
    lex_dash, lex_two_digits d1 d2 (by omega) (by omega), hnil]
  simp only [Bool.false_eq_true, and_false, or_false, CalendarDate.OnOrAfter]
  omega

theorem strGe_iso (a b : CalendarDate) (ha : a.WellFormed) (hb : b.WellFormed) :
    strGe a.iso b.iso = true ↔ a.OnOrAfter b := by
  unfold strGe
  rw [Bool.not_eq_true', ← Bool.not_eq_true, unitsLt_iso a b ha hb, not_not]

/-- C18. The comparison of the upcoming filter agrees with calendar order on
well-formed dates: for two dates with a year up to 9999, a month from 1 to 12 and a
day from 1 to 31, written as zero-padded strings "YYYY-MM-DD" of ten characters, the
first string is greater than or equal to the second, in the comparison of the code
and in lexicographic order, exactly when the first date is the second or a later one;
so a booking with such a `serviceDate` passes the date test of `getUpcomingBookings`
exactly when its date is today or later. -/
theorem iso_order_agrees (a b : CalendarDate) (ha : a.WellFormed) (hb : b.WellFormed) :
    a.iso.length = 10 ∧ b.iso.length = 10 ∧
    (strGe a.iso b.iso = true ↔ a.OnOrAfter b) ∧
    (LexGe a.iso b.iso ↔ a.OnOrAfter b) ∧
    (∀ (bookings : List Booking) (booking : Booking), booking.serviceDate = a.iso →
      (booking ∈ getUpcomingBookings b.iso bookings ↔
        booking ∈ bookings ∧ a.OnOrAfter b ∧
          (booking.status = "Scheduled" ∨ booking.status = "Pending"))) := by
  refine ⟨rfl, rfl, strGe_iso a b ha hb, ?_, ?_⟩
  · rw [← strGe_iff_lexGe]
    exact strGe_iso a b ha hb
  · intro bookings booking hd
    rw [mem_getUpcomingBookings, IsUpcoming, hd, ← strGe_iff_lexGe, strGe_iso a b ha hb]

/-- C18, for 6 November 2026 against 28 February 2026 and against 1 December 2026. -/
theorem iso_order_agrees_witness :
    (⟨2026, 11, 6⟩ : CalendarDate).iso = "2026-11-06" ∧
    strGe "2026-11-06" "2026-02-28" = true ∧
    strGe "2026-11-06" "2026-12-01" = false ∧
    ((⟨2026, 11, 6⟩ : CalendarDate).OnOrAfter ⟨2026, 2, 28⟩ ↔
      strGe (⟨2026, 11, 6⟩ : CalendarDate).iso (⟨2026, 2, 28⟩ : CalendarDate).iso = true) :=
  ⟨by decide, by decide, by decide,
    (iso_order_agrees ⟨2026, 11, 6⟩ ⟨2026, 2, 28⟩ (by decide) (by decide)).2.2.1.symm⟩

/-! ## Error statuses -/

/-- C11, as stated, fails: a complete `POST /api/bookings` for a `vehicleId` that no
vehicle has is answered 400 with "Invalid vehicleId", not 404. -/
theorem postBookings_unknown_vehicle_not_404 :
    (postBookings decimalToNumber initialState
      ⟨some (.num (.fin 5)), some "2026-02-01", some "oil", some "Pending"⟩).2
      = ⟨400, .error "Invalid vehicleId"⟩ ∧
    ¬ (postBookings decimalToNumber initialState
      ⟨some (.num (.fin 5)), some "2026-02-01", some "oil", some "Pending"⟩).2.status = 404 := by
  decide

/-- C11, amended. A missing referenced vehicle is reported as a validation error: a
`POST /api/bookings` whose body has all four fields, none of them falsy, and names a
`vehicleId` whose Number is the id of no vehicle is answered 400 with
"Invalid vehicleId", and the state is the one before. Status 404 is what the requests
whose target id is absent get: update and delete of a vehicle, update and delete of a
booking. -/
theorem postBookings_unknown_vehicle_is_400 (strToNumber : String → JNum) (s : State)
    (vehicleId : IdValue) (serviceDate description status : String)
    (hid : falsyId (some vehicleId) = false) (hd : serviceDate ≠ "")
    (ht : description ≠ "") (hs : status ≠ "")
    (hno : ∀ v ∈ s.vehicles, toNumber strToNumber vehicleId ≠ JNum.ofNat v.id) :
    postBookings strToNumber s ⟨some vehicleId, some serviceDate, some description, some status⟩
      = (s, ⟨400, .error "Invalid vehicleId"⟩) ∧
    (∀ idParam : String, (∀ v ∈ s.vehicles, strToNumber idParam ≠ JNum.ofNat v.id) →
      (∀ body, (patchVehicle strToNumber s idParam body).2.status = 404) ∧
      (deleteVehicle strToNumber s idParam).2.status = 404) ∧
    (∀ idParam : String, (∀ b ∈ s.bookings, strToNumber idParam ≠ JNum.ofNat b.id) →
      (∀ body, (patchBooking strToNumber s idParam body).2.status = 404) ∧
      (deleteBooking strToNumber s idParam).2.status = 404) := by
  refine ⟨?_, ?_, ?_⟩
  · rcases postBookings_cases strToNumber s
        ⟨some vehicleId, some serviceDate, some description, some status⟩ with
      ⟨hf, _⟩ | ⟨i, hi, _, e⟩ | ⟨i, d, t, u, hb, _, _, _, _, ⟨v, hv, hx⟩, _⟩
    · simp [falsyText, hid, hd, ht, hs] at hf
    · exact e
    · simp only [BookingBody.mk.injEq, Option.some.injEq] at hb
      obtain ⟨rfl, _, _, _⟩ := hb
      exact absurd hx (hno v hv)
  · intro idParam h
    refine ⟨fun body => ?_, ?_⟩
    · rcases patchVehicle_cases strToNumber s idParam body with
        ⟨_, e⟩ | ⟨pre, v, post, hl, _, hv, _⟩
      · rw [e]
      · exact absurd hv (h v (by rw [hl]; simp))
    · rcases deleteVehicle_cases strToNumber s idParam with ⟨_, e⟩ | ⟨⟨v, hv, hx⟩, _⟩
      · rw [e]
      · exact absurd hx (h v hv)
  · intro idParam h
    refine ⟨fun body => ?_, ?_⟩
    · rcases patchBooking_cases strToNumber s idParam body with
        ⟨_, e⟩ | ⟨pre, b, post, hl, _, hb, _⟩
      · rw [e]
      · exact absurd hb (h b (by rw [hl]; simp))
    · rcases deleteBooking_cases strToNumber s idParam with ⟨_, e⟩ | ⟨⟨b, hb, hx⟩, _⟩
      · rw [e]
      · exact absurd hx (h b hb)

/-- C11 amended, at the initial state with the string "8" as `vehicleId`. -/
theorem postBookings_unknown_vehicle_is_400_witness :
    postBookings decimalToNumber initialState
        ⟨some (.str "8"), some "2026-02-01", some "oil", some "Pending"⟩
      = (initialState, ⟨400, .error "Invalid vehicleId"⟩) :=
  (postBookings_unknown_vehicle_is_400 decimalToNumber initialState (.str "8")
    "2026-02-01" "oil" "Pending" (by decide) (by decide) (by decide) (by decide)
    (by
      intro v hm
      simp only [initialState, List.mem_singleton] at hm
      subst hm
      decide)).1

/-! ## Summary -/

/-- C12. Summary is exact: `GET /api/summary` leaves the state and answers 200 with
`totalVehicles` the length of the vehicle list, `totalBookings` the length of the
booking list and `upcomingServices` the length of the list that
`GET /api/bookings?upcoming=true` answers on the same state and date, which is at most
`totalBookings`; after two successful booking creations from the initial state, which
can only be for vehicle 1, the summary has `totalVehicles` 1 and `totalBookings` 2. -/
theorem getSummary_exact (strToNumber : String → JNum) (today : String) (s : State) :
    (∃ upcoming : List Booking,
      (getBookings today s (some "true")).2.body = .bookings upcoming ∧
      upcoming.length ≤ s.bookings.length ∧
      getSummary today s =
        (s, ⟨200, .summary s.vehicles.length s.bookings.length upcoming.length⟩)) ∧
    (∀ first second : BookingBody,
      (postBookings strToNumber initialState first).2.status = 201 →
      (postBookings strToNumber (postBookings strToNumber initialState first).1 second).2.status
        = 201 →
      (∀ b ∈ (postBookings strToNumber
          (postBookings strToNumber initialState first).1 second).1.bookings,
        b.vehicleId = JNum.ofNat 1) ∧
      ∃ upcomingServices,
        (getSummary today
          (postBookings strToNumber (postBookings strToNumber initialState first).1 second).1).2
          = ⟨200, .summary 1 2 upcomingServices⟩) := by
  refine ⟨⟨getUpcomingBookings today s.bookings, by simp [getBookings],
    List.length_filter_le _ _, rfl⟩, ?_⟩
  intro first second h1 h2
  rcases postBookings_cases strToNumber initialState first with
    ⟨_, e⟩ | ⟨_, _, _, e⟩ | ⟨i, d, t, u, _, _, _, _, _, ⟨v, hv, hx⟩, e⟩
  · rw [e] at h1
    simp at h1
  · rw [e] at h1
    simp at h1
  rw [e] at h2 ⊢
  simp only [initialState, List.mem_singleton] at hv
  subst hv
  rcases postBookings_cases strToNumber _ second with
    ⟨_, e2⟩ | ⟨_, _, _, e2⟩ | ⟨i2, d2, t2, u2, _, _, _, _, _, ⟨v2, hv2, hx2⟩, e2⟩
  · rw [e2] at h2
    simp at h2
  · rw [e2] at h2
    simp at h2
  rw [e2]
  simp only [initialState, List.mem_singleton] at hv2
  subst hv2
  refine ⟨?_, ⟨_, by simp [getSummary, initialState]; rfl⟩⟩
  intro b hb
  simp only [initialState, List.nil_append, List.cons_append, List.mem_cons,
    List.mem_singleton, List.not_mem_nil, or_false] at hb
  rcases hb with rfl | rfl
  · exact hx
  · exact hx2

/-- C12, after two bookings for the seeded vehicle, one of them upcoming on
2026-02-01. -/
theorem getSummary_exact_witness :
    (getSummary "2026-02-01"
      (postBookings decimalToNumber
        (postBookings decimalToNumber initialState sampleBookingBody).1
        ⟨some (.str "1"), some "2026-01-15", some "tyres", some "Scheduled"⟩).1).2
      = ⟨200, .summary 1 2 1⟩ ∧
    ∃ upcomingServices,
      (getSummary "2026-02-01"
        (postBookings decimalToNumber
          (postBookings decimalToNumber initialState sampleBookingBody).1
          ⟨some (.str "1"), some "2026-01-15", some "tyres", some "Scheduled"⟩).1).2
        = ⟨200, .summary 1 2 upcomingServices⟩ :=
  ⟨by decide,
    ((getSummary_exact decimalToNumber "2026-02-01" initialState).2 sampleBookingBody
      ⟨some (.str "1"), some "2026-01-15", some "tyres", some "Scheduled"⟩
      (by decide) (by decide)).2⟩

/-! ## Order of the lists -/

theorem handle_vehicle_ids (strToNumber : String → JNum) (today : String) (s : State)
    (req : Request) :
    ((handle strToNumber today s req).1.vehicles.map (·.id)).Sublist
      (s.vehicles.map (·.id) ++
        (createdVehicleId (req, (handle strToNumber today s req).2)).toList) := by
  cases req with
  | getRoot => simp [handle, getRoot, createdVehicleId]
  | getSummary => simp [handle, getSummary, createdVehicleId]
  | getVehicles => simp [handle, getVehicles, createdVehicleId]
  | unmatched => simp [handle, notFound, createdVehicleId]
  | getBookings upcoming =>
    simp only [handle, getBookings]
    split <;> simp [createdVehicleId]
  | postVehicles body =>
    rcases postVehicles_cases s body with ⟨_, e⟩ | ⟨r, m, o, _, _, _, _, e⟩ <;>
      simp [handle, e, createdVehicleId]
  | postBookings body =>
    rcases postBookings_cases strToNumber s body with
      ⟨_, e⟩ | ⟨_, _, _, e⟩ | ⟨i, d, t, u, _, _, _, _, _, _, e⟩ <;>
      simp [handle, e, createdVehicleId]
  | deleteVehicle idParam =>
    rcases deleteVehicle_cases strToNumber s idParam with ⟨_, e⟩ | ⟨_, e⟩
    · simp [handle, e, createdVehicleId]
    · simp only [handle, e, createdVehicleId, Option.toList, List.append_nil]
      exact (List.filter_sublist _).map _
  | deleteBooking idParam =>
    rcases deleteBooking_cases strToNumber s idParam with ⟨_, e⟩ | ⟨_, e⟩ <;>
      simp [handle, e, createdVehicleId]
  | patchVehicle idParam body =>
    rcases patchVehicle_cases strToNumber s idParam body with
      ⟨_, e⟩ | ⟨pre, v, post, hl, _, _, e⟩
    · simp [handle, e, createdVehicleId]
    · simp [handle, e, createdVehicleId, hl, applyVehicleBody_id]
  | patchBooking idParam body =>
    rcases patchBooking_cases strToNumber s idParam body with
      ⟨_, e⟩ | ⟨pre, b, post, _, _, _, e⟩ <;>
      simp [handle, e, createdVehicleId]

theorem handle_booking_ids (strToNumber : String → JNum) (today : String) (s : State)
    (req : Request) :
    ((handle strToNumber today s req).1.bookings.map (·.id)).Sublist
      (s.bookings.map (·.id) ++
        (createdBookingId (req, (handle strToNumber today s req).2)).toList) := by
  cases req with
  | getRoot => simp [handle, getRoot, createdBookingId]
  | getSummary => simp [handle, getSummary, createdBookingId]
  | getVehicles => simp [handle, getVehicles, createdBookingId]
  | unmatched => simp [handle, notFound, createdBookingId]
  | getBookings upcoming =>
    simp only [handle, getBookings]
    split <;> simp [createdBookingId]
  | postVehicles body =>
    rcases postVehicles_cases s body with ⟨_, e⟩ | ⟨r, m, o, _, _, _, _, e⟩ <;>
      simp [handle, e, createdBookingId]
  | postBookings body =>
    rcases postBookings_cases strToNumber s body with
      ⟨_, e⟩ | ⟨_, _, _, e⟩ | ⟨i, d, t, u, _, _, _, _, _, _, e⟩ <;>
      simp [handle, e, createdBookingId]
  | deleteVehicle idParam =>
    rcases deleteVehicle_cases strToNumber s idParam with ⟨_, e⟩ | ⟨_, e⟩
    · simp [handle, e, createdBookingId]
    · simp only [handle, e, createdBookingId, Option.toList, List.append_nil]
      exact (List.filter_sublist _).map _
  | deleteBooking idParam =>
    rcases deleteBooking_cases strToNumber s idParam with ⟨_, e⟩ | ⟨_, e⟩
    · simp [handle, e, createdBookingId]
    · simp only [handle, e, createdBookingId, Option.toList, List.append_nil]
      exact (List.filter_sublist _).map _
  | patchVehicle idParam body =>
    rcases patchVehicle_cases strToNumber s idParam body with
      ⟨_, e⟩ | ⟨pre, v, post, _, _, _, e⟩ <;>
      simp [handle, e, createdBookingId]
  | patchBooking idParam body =>
    rcases patchBooking_cases strToNumber s idParam body with
      ⟨_, e⟩ | ⟨pre, b, post, hl, _, _, e⟩
    · simp [handle, e, createdBookingId]
    · simp [handle, e, createdBookingId, hl, applyBookingBody_id]

theorem run_vehicle_ids (strToNumber : String → JNum) (reqs : List (String × Request)) :
    ∀ s : State, ((run strToNumber s reqs).1.vehicles.map (·.id)).Sublist
      (s.vehicles.map (·.id) ++ (run strToNumber s reqs).2.filterMap createdVehicleId) := by
  induction reqs with
  | nil =>
    intro s
    simp [run]
  | cons r rest ih =>
    intro s
    obtain ⟨today, req⟩ := r
    have h1 := ih (handle strToNumber today s req).1
    have h2 := handle_vehicle_ids strToNumber today s req
    have h3 := h1.trans (h2.append (List.Sublist.refl _))
    simp only [run]
    cases hc : createdVehicleId (req, (handle strToNumber today s req).2) with
    | none =>
      rw [List.filterMap_cons_none hc]
      simpa [hc] using h3
    | some j =>
      rw [List.filterMap_cons_some hc]
      simpa [hc] using h3

theorem run_booking_ids (strToNumber : String → JNum) (reqs : List (String × Request)) :
    ∀ s : State, ((run strToNumber s reqs).1.bookings.map (·.id)).Sublist
      (s.bookings.map (·.id) ++ (run strToNumber s reqs).2.filterMap createdBookingId) := by
  induction reqs with
  | nil =>
    intro s
    simp [run]
  | cons r rest ih =>
    intro s
    obtain ⟨today, req⟩ := r
    have h1 := ih (handle strToNumber today s req).1
    have h2 := handle_booking_ids strToNumber today s req
    have h3 := h1.trans (h2.append (List.Sublist.refl _))
    simp only [run]
    cases hc : createdBookingId (req, (handle strToNumber today s req).2) with
    | none =>
      rw [List.filterMap_cons_none hc]
      simpa [hc] using h3
    | some j =>
      rw [List.filterMap_cons_some hc]
      simpa [hc] using h3

/-- C13. Lists are in insertion order. In every reachable state `GET /api/vehicles`
answers the vehicle list and `GET /api/bookings` without the flag the booking list,
and each is in strictly increasing order of id. No request reorders: after any
request, from any state, the ids of the list are a sub-list of the ids before followed
by the id the request created, if it created one. Over any sequence of requests from
the initial state, the ids of the final lists are a sub-list of the ids in the order
of their creation: the seeded 1 and then the ids the creates handed out, for vehicles,
and the ids the creates handed out, for bookings. -/
theorem lists_in_insertion_order (strToNumber : String → JNum) :
    (∀ s : State, Reachable strToNumber s →
      (getVehicles s).2 = ⟨200, .vehicles s.vehicles⟩ ∧
      (s.vehicles.map (·.id)).Pairwise (· < ·) ∧
      (∀ today : String, (getBookings today s none).2 = ⟨200, .bookings s.bookings⟩) ∧
      (s.bookings.map (·.id)).Pairwise (· < ·)) ∧
    (∀ (today : String) (s : State) (req : Request),
      ((handle strToNumber today s req).1.vehicles.map (·.id)).Sublist
        (s.vehicles.map (·.id) ++
          (createdVehicleId (req, (handle strToNumber today s req).2)).toList) ∧
      ((handle strToNumber today s req).1.bookings.map (·.id)).Sublist
        (s.bookings.map (·.id) ++
          (createdBookingId (req, (handle strToNumber today s req).2)).toList)) ∧
    (∀ reqs : List (String × Request),
      ((run strToNumber initialState reqs).1.vehicles.map (·.id)).Sublist
        (1 :: (run strToNumber initialState reqs).2.filterMap createdVehicleId) ∧
      ((run strToNumber initialState reqs).1.bookings.map (·.id)).Sublist
        ((run strToNumber initialState reqs).2.filterMap createdBookingId)) := by
  refine ⟨?_, ?_, ?_⟩
  · intro s hs
    have h := inv_of_reachable strToNumber hs
    exact ⟨rfl, h.1.1, fun _ => by simp [getBookings], h.2.1⟩
  · intro today s req
    exact ⟨handle_vehicle_ids strToNumber today s req,
      handle_booking_ids strToNumber today s req⟩
  · intro reqs
    exact ⟨by simpa [initialState] using run_vehicle_ids strToNumber reqs initialState,
      by simpa [initialState] using run_booking_ids strToNumber reqs initialState⟩

/-- C13, after a second vehicle is created, the seeded one deleted and a third
created: the list is in the order of ids 2, 3. -/
theorem lists_in_insertion_order_witness :
    (run decimalToNumber initialState
      [("2026-01-01", .postVehicles sampleVehicleBody),
        ("2026-01-02", .deleteVehicle "1"),
        ("2026-01-03", .postVehicles sampleVehicleBody)]).1.vehicles.map (·.id) = [2, 3] ∧
    ((run decimalToNumber initialState
      [("2026-01-01", .postVehicles sampleVehicleBody),
        ("2026-01-02", .deleteVehicle "1"),
        ("2026-01-03", .postVehicles sampleVehicleBody)]).1.vehicles.map
          (·.id)).Pairwise (· < ·) :=
  ⟨by decide,
    ((lists_in_insertion_order decimalToNumber).1 _
      (run_reachable decimalToNumber
        [("2026-01-01", .postVehicles sampleVehicleBody),
          ("2026-01-02", .deleteVehicle "1"),
          ("2026-01-03", .postVehicles sampleVehicleBody)] initialState Reachable.init)).2.1⟩

/-! ## Creation against update -/

/-- C14. Create booking rejects empty and zero fields before it looks up the vehicle:
when `vehicleId` is absent or the number 0, or one of `serviceDate`, `description`,
`status` is absent or the empty string, `POST /api/bookings` answers 400 with
"All fields are required" and the state, `nextBookingId` included, is the one before.
The update of an existing booking accepts the same values: it answers 200 and stores
the number 0 as `vehicleId` and the empty string as `serviceDate`, `description` or
`status` where the body supplies them. -/
theorem postBookings_rejects_falsy (strToNumber : String → JNum) (s : State) :
    (∀ body : BookingBody,
      ((body.vehicleId = none ∨ body.vehicleId = some (.num (.fin 0))) ∨
        (body.serviceDate = none ∨ body.serviceDate = some "") ∨
        (body.description = none ∨ body.description = some "") ∨
        (body.status = none ∨ body.status = some "")) →
      postBookings strToNumber s body = (s, ⟨400, .error "All fields are required"⟩)) ∧
    (∀ (idParam : String) (body : BookingBody),
      (∃ b ∈ s.bookings, strToNumber idParam = JNum.ofNat b.id) →
      ∃ (pre : List Booking) (b : Booking) (post : List Booking) (updated : Booking),
        s.bookings = pre ++ b :: post ∧ strToNumber idParam = JNum.ofNat b.id ∧
        patchBooking strToNumber s idParam body =
          ({ vehicles := s.vehicles
             bookings := pre ++ updated :: post
             nextVehicleId := s.nextVehicleId
             nextBookingId := s.nextBookingId },
            ⟨200, .booking updated⟩) ∧
        (body.vehicleId = some (.num (.fin 0)) → updated.vehicleId = .fin 0) ∧
        (body.serviceDate = some "" → updated.serviceDate = "") ∧
        (body.description = some "" → updated.description = "") ∧
        (body.status = some "" → updated.status = "")) := by
  refine ⟨?_, ?_⟩
  · intro body h
    have hf : (falsyId body.vehicleId || falsyText body.serviceDate ||
        falsyText body.description || falsyText body.status) = true := by
      rcases h with (h | h) | (h | h) | (h | h) | (h | h) <;> rw [h] <;>
        simp [falsyId, falsyText, JNum.falsy]
    simp only [postBookings, hf, if_true]
  · intro idParam body h
    rcases patchBooking_cases strToNumber s idParam body with
      ⟨hno, _⟩ | ⟨pre, b, post, hl, _, hb, e⟩
    · obtain ⟨b, hb, hx⟩ := h
      exact absurd hx (hno b hb)
    · have hf := applyBookingBody_fields strToNumber body b
      refine ⟨pre, b, post, applyBookingBody strToNumber body b, hl, hb, e, ?_, ?_, ?_, ?_⟩
      · intro hv
        rw [hf.1, hv]
        rfl
      · intro hv
        rw [hf.2.1, hv]
      · intro hv
        rw [hf.2.2.1, hv]
      · intro hv
        rw [hf.2.2.2, hv]

/-- C14, on the sample state: the create with `vehicleId` 0 is rejected for the
missing field, the update of booking 1 with 0 and three empty strings is stored. -/
theorem postBookings_rejects_falsy_witness :
    postBookings decimalToNumber sampleState
        ⟨some (.num (.fin 0)), some "2026-02-01", some "oil", some "Pending"⟩
      = (sampleState, ⟨400, .error "All fields are required"⟩) ∧
    patchBooking decimalToNumber sampleState "1" ⟨some (.num (.fin 0)), some "", some "", some ""⟩
      = ({ sampleState with
            bookings :=
              [⟨1, .fin 0, "", "", ""⟩,
                ⟨2, .fin 7, "2026-01-02", "tyres", "Scheduled"⟩,
                ⟨3, .fin 1, "2026-01-03", "brakes", "Completed"⟩] },
          ⟨200, .booking ⟨1, .fin 0, "", "", ""⟩⟩) :=
  ⟨(postBookings_rejects_falsy decimalToNumber sampleState).1
      ⟨some (.num (.fin 0)), some "2026-02-01", some "oil", some "Pending"⟩
      (Or.inl (Or.inr rfl)),
    by decide⟩

theorem patchBooking_vehicles (strToNumber : String → JNum) (s : State)
    (vehicles : List Vehicle) (idParam : String) (body : BookingBody) :
    patchBooking strToNumber { s with vehicles := vehicles } idParam body =
      ({ (patchBooking strToNumber s idParam body).1 with vehicles := vehicles },
        (patchBooking strToNumber s idParam body).2) := by
  simp only [patchBooking]
  cases s.bookings.find? (fun b => (JNum.ofNat b.id).strictEq (strToNumber idParam)) <;> rfl

/-- C15. Booking update does not re-validate the vehicle. Where `Number("1")` is 1, as
on the platform, there is a reachable state and a `PATCH /api/bookings/:id` request
that supplies a `vehicleId` matching no vehicle, is answered 200, and leaves a booking
whose `vehicleId` is the id of no vehicle of the list. In general the update of an
existing booking is answered 200 and stores the Number of a supplied `vehicleId`, and
its answer and its booking list are the same whatever the vehicle list is. -/
theorem patchBooking_no_revalidation (strToNumber : String → JNum) :
    (strToNumber "1" = JNum.ofNat 1 →
      ∃ (s : State) (idParam : String) (body : BookingBody) (vehicleId : IdValue),
        Reachable strToNumber s ∧ body.vehicleId = some vehicleId ∧
        (∀ v ∈ s.vehicles, toNumber strToNumber vehicleId ≠ JNum.ofNat v.id) ∧
        (patchBooking strToNumber s idParam body).2.status = 200 ∧
        ∃ b ∈ (patchBooking strToNumber s idParam body).1.bookings,
          ∀ v ∈ (patchBooking strToNumber s idParam body).1.vehicles,
            b.vehicleId ≠ JNum.ofNat v.id) ∧
    (∀ (s : State) (idParam : String) (body : BookingBody),
      (∃ b ∈ s.bookings, strToNumber idParam = JNum.ofNat b.id) →
      (patchBooking strToNumber s idParam body).2.status = 200 ∧
      (∀ vehicleId, body.vehicleId = some vehicleId →
        ∃ b ∈ (patchBooking strToNumber s idParam body).1.bookings,
          strToNumber idParam = JNum.ofNat b.id ∧
          b.vehicleId = toNumber strToNumber vehicleId ∧
          (patchBooking strToNumber s idParam body).2.body = .booking b) ∧
      (∀ vehicles : List Vehicle,
        patchBooking strToNumber { s with vehicles := vehicles } idParam body =
          ({ (patchBooking strToNumber s idParam body).1 with vehicles := vehicles },
            (patchBooking strToNumber s idParam body).2))) := by
  refine ⟨?_, ?_⟩
  · intro h1
    have hne : ∀ v ∈ initialState.vehicles, JNum.ofNat 99 ≠ JNum.ofNat v.id := by
      intro v hv he
      simp only [initialState, List.mem_singleton] at hv
      subst hv
      exact absurd (JNum.ofNat_injective he) (by decide)
    have hpost : postBookings strToNumber initialState
        ⟨some (.num (JNum.ofNat 1)), some "2026-02-01", some "oil", some "Pending"⟩ =
        ({ initialState with
            bookings := [⟨1, JNum.ofNat 1, "2026-02-01", "oil", "Pending"⟩]
            nextBookingId := 2 },
          ⟨201, .booking ⟨1, JNum.ofNat 1, "2026-02-01", "oil", "Pending"⟩⟩) := by
      rcases postBookings_cases strToNumber initialState
          ⟨some (.num (JNum.ofNat 1)), some "2026-02-01", some "oil", some "Pending"⟩ with
        ⟨hf, _⟩ | ⟨i, hi, hno, _⟩ | ⟨i, d, t, u, hb, _, _, _, _, _, e⟩
      · have h0 : falsyId (some (.num (JNum.ofNat 1))) = false := by decide
        simp [falsyText, h0] at hf
      · simp only [Option.some.injEq] at hi
        subst hi
        exact absurd rfl (hno ⟨1, "AP01AB1234", "Swift", "Reddy"⟩ (by simp [initialState]))
      · simp only [BookingBody.mk.injEq, Option.some.injEq] at hb
        obtain ⟨rfl, rfl, rfl, rfl⟩ := hb
        rw [e]
        rfl
    have hreach : Reachable strToNumber
        { initialState with
          bookings := [⟨1, JNum.ofNat 1, "2026-02-01", "oil", "Pending"⟩]
          nextBookingId := 2 } := by
      have := @Reachable.step strToNumber initialState "2026-01-01"
        (.postBookings
          ⟨some (.num (JNum.ofNat 1)), some "2026-02-01", some "oil", some "Pending"⟩)
        Reachable.init
      simpa only [handle, hpost] using this
    have hpatch : patchBooking strToNumber
        { initialState with
          bookings := [⟨1, JNum.ofNat 1, "2026-02-01", "oil", "Pending"⟩]
          nextBookingId := 2 } "1" ⟨some (.num (JNum.ofNat 99)), none, none, none⟩ =
        ({ initialState with
            bookings := [⟨1, JNum.ofNat 99, "2026-02-01", "oil", "Pending"⟩]
            nextBookingId := 2 },
          ⟨200, .booking ⟨1, JNum.ofNat 99, "2026-02-01", "oil", "Pending"⟩⟩) := by
      have hs : (JNum.ofNat 1).strictEq (JNum.ofNat 1) = true :=
        (JNum.ofNat_strictEq 1 _).2 rfl
      simp only [patchBooking, h1, List.find?, hs, updateFirst, if_true]
      rfl
    refine ⟨_, "1", ⟨some (.num (JNum.ofNat 99)), none, none, none⟩, .num (JNum.ofNat 99),
      hreach, rfl, hne, ?_, ?_⟩
    · rw [hpatch]
    · rw [hpatch]
      exact ⟨⟨1, JNum.ofNat 99, "2026-02-01", "oil", "Pending"⟩, by simp, hne⟩
  · intro s idParam body h
    rcases patchBooking_cases strToNumber s idParam body with
      ⟨hno, _⟩ | ⟨pre, b, post, hl, _, hb, e⟩
    · obtain ⟨b, hb, hx⟩ := h
      exact absurd hx (hno b hb)
    · refine ⟨by rw [e], ?_, fun vehicles => patchBooking_vehicles strToNumber s vehicles _ _⟩
      intro vehicleId hv
      rw [e]
      refine ⟨applyBookingBody strToNumber body b, by simp, ?_, ?_, rfl⟩
      · rw [applyBookingBody_id]
        exact hb
      · rw [(applyBookingBody_fields strToNumber body b).1, hv]

/-- C15, from the initial state: a booking is created for vehicle 1 and then updated
to `vehicleId` 99, which no vehicle has. -/
theorem patchBooking_no_revalidation_witness :
    decimalToNumber "1" = JNum.ofNat 1 ∧
    patchBooking decimalToNumber
        (postBookings decimalToNumber initialState sampleBookingBody).1 "1"
        ⟨some (.num (.fin 99)), none, none, none⟩ =
      ({ initialState with
          bookings := [⟨1, .fin 99, "2026-02-01", "oil", "Pending"⟩]
          nextBookingId := 2 },
        ⟨200, .booking ⟨1, .fin 99, "2026-02-01", "oil", "Pending"⟩⟩) ∧
    ∃ (s : State) (idParam : String) (body : BookingBody) (vehicleId : IdValue),
      Reachable decimalToNumber s ∧ body.vehicleId = some vehicleId ∧
      (∀ v ∈ s.vehicles, toNumber decimalToNumber vehicleId ≠ JNum.ofNat v.id) ∧
      (patchBooking decimalToNumber s idParam body).2.status = 200 ∧
      ∃ b ∈ (patchBooking decimalToNumber s idParam body).1.bookings,
        ∀ v ∈ (patchBooking decimalToNumber s idParam body).1.vehicles,
          b.vehicleId ≠ JNum.ofNat v.id :=
  ⟨by decide, by decide, (patchBooking_no_revalidation decimalToNumber).1 (by decide)⟩

/-! ## Referential integrity -/

theorem handle_referentialIntegrity (strToNumber : String → JNum) (today : String)
    (s : State) (req : Request) (hreq : suppliesVehicleId req = false)
    (h : ReferentialIntegrity s) :
    ReferentialIntegrity (handle strToNumber today s req).1 := by
  cases req with
  | getRoot => exact h
  | getSummary => exact h
  | getVehicles => exact h
  | unmatched => exact h
  | getBookings upcoming =>
    simp only [handle, getBookings]
    split <;> exact h
  | postVehicles body =>
    rcases postVehicles_cases s body with ⟨_, e⟩ | ⟨r, m, o, _, _, _, _, e⟩
    · simp only [handle, e]
      exact h
    · simp only [handle, e]
      intro b hb
      obtain ⟨v, hv, hx⟩ := h b hb
      exact ⟨v, List.mem_append_left _ hv, hx⟩
  | postBookings body =>
    rcases postBookings_cases strToNumber s body with
      ⟨_, e⟩ | ⟨_, _, _, e⟩ | ⟨i, d, t, u, _, _, _, _, _, hv, e⟩
    · simp only [handle, e]
      exact h
    · simp only [handle, e]
      exact h
    · simp only [handle, e]
      intro b hb
      rcases List.mem_append.1 hb with hb | hb
      · exact h b hb
      · rw [List.mem_singleton] at hb
        subst hb
        exact hv
  | deleteVehicle idParam =>
    rcases deleteVehicle_cases strToNumber s idParam with ⟨_, e⟩ | ⟨_, e⟩
    · simp only [handle, e]
      exact h
    · simp only [handle, e]
      intro b hb
      obtain ⟨hb1, hb2⟩ := List.mem_filter.1 hb
      obtain ⟨v, hv, hx⟩ := h b hb1
      refine ⟨v, List.mem_filter.2 ⟨hv, ?_⟩, hx⟩
      rw [← hx]
      exact hb2
  | deleteBooking idParam =>
    rcases deleteBooking_cases strToNumber s idParam with ⟨_, e⟩ | ⟨_, e⟩
    · simp only [handle, e]
      exact h
    · simp only [handle, e]
      intro b hb
      exact h b (List.mem_filter.1 hb).1
  | patchVehicle idParam body =>
    rcases patchVehicle_cases strToNumber s idParam body with
      ⟨_, e⟩ | ⟨pre, v, post, hl, _, _, e⟩
    · simp only [handle, e]
      exact h
    · simp only [handle, e]
      intro b hb
      obtain ⟨w, hw, hx⟩ := h b hb
      rw [hl] at hw
      rcases List.mem_append.1 hw with hw | hw
      · exact ⟨w, List.mem_append_left _ hw, hx⟩
      · rcases List.mem_cons.1 hw with rfl | hw
        · exact ⟨applyVehicleBody body w, by simp, by rw [applyVehicleBody_id]; exact hx⟩
        · exact ⟨w, List.mem_append_right _ (List.mem_cons_of_mem _ hw), hx⟩
  | patchBooking idParam body =>
    have hnone : body.vehicleId = none := by
      cases hv : body.vehicleId with
      | none => rfl
      | some i => simp [suppliesVehicleId, hv] at hreq
    rcases patchBooking_cases strToNumber s idParam body with
      ⟨_, e⟩ | ⟨pre, b0, post, hl, _, _, e⟩
    · simp only [handle, e]
      exact h
    · simp only [handle, e]
      have hsame : (applyBookingBody strToNumber body b0).vehicleId = b0.vehicleId := by
        rw [(applyBookingBody_fields strToNumber body b0).1, hnone]
      intro b hb
      rcases List.mem_append.1 hb with hb | hb
      · exact h b (by rw [hl]; exact List.mem_append_left _ hb)
      · rcases List.mem_cons.1 hb with rfl | hb
        · rw [hsame]
          exact h b0 (by rw [hl]; simp)
        · exact h b (by rw [hl]; exact List.mem_append_right _ (List.mem_cons_of_mem _ hb))

/-- C16. Referential integrity without booking re-pointing: in every state reachable
from the initial state by requests of which no `PATCH /api/bookings/:id` supplies a
`vehicleId`, the `vehicleId` of every booking is the id of a vehicle of the vehicle
list. -/
theorem referential_integrity (strToNumber : String → JNum) (s : State)
    (h : ReachableWithoutRepointing strToNumber s) :
    ∀ b ∈ s.bookings, ∃ v ∈ s.vehicles, b.vehicleId = JNum.ofNat v.id := by
  induction h with
  | init =>
    intro b hb
    simp [initialState] at hb
  | step today req hreq _ ih =>
    exact handle_referentialIntegrity strToNumber today _ req hreq ih

/-- C16, after a booking for vehicle 1 is created and its status updated. -/
theorem referential_integrity_witness :
    (handle decimalToNumber "2026-01-02"
      (handle decimalToNumber "2026-01-01" initialState (.postBookings sampleBookingBody)).1
      (.patchBooking "1" ⟨none, none, none, some "Completed"⟩)).1.bookings
      = [⟨1, .fin 1, "2026-02-01", "oil", "Completed"⟩] ∧
    ∀ b ∈ (handle decimalToNumber "2026-01-02"
      (handle decimalToNumber "2026-01-01" initialState (.postBookings sampleBookingBody)).1
      (.patchBooking "1" ⟨none, none, none, some "Completed"⟩)).1.bookings,
      ∃ v ∈ (handle decimalToNumber "2026-01-02"
        (handle decimalToNumber "2026-01-01" initialState (.postBookings sampleBookingBody)).1
        (.patchBooking "1" ⟨none, none, none, some "Completed"⟩)).1.vehicles,
        b.vehicleId = JNum.ofNat v.id :=
  ⟨by decide,
    referential_integrity decimalToNumber _
      (ReachableWithoutRepointing.step "2026-01-02"
        (.patchBooking "1" ⟨none, none, none, some "Completed"⟩) rfl
        (ReachableWithoutRepointing.step "2026-01-01" (.postBookings sampleBookingBody) rfl
          ReachableWithoutRepointing.init))⟩

/-! ## What a successful delete removes -/

theorem filter_others_of_nodup {α : Type} (g : α → Nat) (p : α → Bool) (pre post : List α)
    (x : α) (hx : p x = false) (hp : ∀ w, g w ≠ g x → p w = true)
    (h : ((pre ++ x :: post).map g).Nodup) :
    (pre ++ x :: post).filter p = pre ++ post := by
  have hne := others_ne_of_nodup g pre post x h
  have h1 : pre.filter p = pre :=
    List.filter_eq_self.2 (fun w hw => hp w (hne w (List.mem_append_left _ hw)))
  have h2 : post.filter p = post :=
    List.filter_eq_self.2 (fun w hw => hp w (hne w (List.mem_append_right _ hw)))
  rw [List.filter_append, List.filter_cons_of_neg (by simp [hx]), h1, h2]

/-- C17. A successful delete removes exactly one record of its own collection. In a
reachable state, a `DELETE /api/vehicles/:id` answered 204 takes one vehicle out of the
list, at its place: the list is one shorter and every vehicle of another id is still
in it; a `DELETE /api/bookings/:id` answered 204 takes one booking out of the list, at
its place: the list is one shorter, every other booking is still in it as it was, and
the vehicle list and both counters are the ones before. -/
theorem delete_removes_one (strToNumber : String → JNum) (s : State)
    (hs : Reachable strToNumber s) (idParam : String) :
    ((deleteVehicle strToNumber s idParam).2.status = 204 →
      ∃ (pre : List Vehicle) (v : Vehicle) (post : List Vehicle),
        s.vehicles = pre ++ v :: post ∧ strToNumber idParam = JNum.ofNat v.id ∧
        (deleteVehicle strToNumber s idParam).1.vehicles = pre ++ post ∧
        (deleteVehicle strToNumber s idParam).1.vehicles.length + 1 = s.vehicles.length ∧
        (∀ w ∈ s.vehicles, w.id ≠ v.id →
          w ∈ (deleteVehicle strToNumber s idParam).1.vehicles)) ∧
    ((deleteBooking strToNumber s idParam).2.status = 204 →
      ∃ (pre : List Booking) (b : Booking) (post : List Booking),
        s.bookings = pre ++ b :: post ∧ strToNumber idParam = JNum.ofNat b.id ∧
        (deleteBooking strToNumber s idParam).1 =
          { vehicles := s.vehicles
            bookings := pre ++ post
            nextVehicleId := s.nextVehicleId
            nextBookingId := s.nextBookingId } ∧
        (deleteBooking strToNumber s idParam).1.bookings.length + 1 = s.bookings.length ∧
        (∀ w ∈ s.bookings, w ≠ b →
          w ∈ (deleteBooking strToNumber s idParam).1.bookings)) := by
  have hinv := inv_of_reachable strToNumber hs
  refine ⟨?_, ?_⟩
  · intro h204
    rcases deleteVehicle_cases strToNumber s idParam with ⟨_, e⟩ | ⟨⟨v, hv, hx⟩, e⟩
    · rw [e] at h204
      simp at h204
    · obtain ⟨pre, post, hl⟩ := List.append_of_mem hv
      have hnd : ((pre ++ v :: post).map (·.id)).Nodup := by
        rw [← hl]
        exact hinv.1.nodup
      have hf : s.vehicles.filter
          (fun w => !(JNum.ofNat w.id).strictEq (strToNumber idParam)) = pre ++ post := by
        rw [hl]
        apply filter_others_of_nodup (·.id) _ pre post v _ _ hnd
        · simp [(JNum.ofNat_strictEq v.id _).2 hx]
        · intro w hw
          rw [Bool.not_eq_true', Bool.eq_false_iff, ne_eq, JNum.ofNat_strictEq, hx]
          intro he
          exact hw (JNum.ofNat_injective he).symm
      rw [e]
      refine ⟨pre, v, post, hl, hx, hf, ?_, ?_⟩
      · dsimp only
        rw [hf, hl, List.length_append, List.length_append, List.length_cons]
        omega
      · intro w hw hne
        simp only [hf]
        rw [hl] at hw
        rcases List.mem_append.1 hw with hw | hw
        · exact List.mem_append_left _ hw
        · rcases List.mem_cons.1 hw with rfl | hw
          · exact absurd rfl hne
          · exact List.mem_append_right _ hw
  · intro h204
    rcases deleteBooking_cases strToNumber s idParam with ⟨_, e⟩ | ⟨⟨b, hb, hx⟩, e⟩
    · rw [e] at h204
      simp at h204
    · obtain ⟨pre, post, hl⟩ := List.append_of_mem hb
      have hnd : ((pre ++ b :: post).map (·.id)).Nodup := by
        rw [← hl]
        exact hinv.2.nodup
      have hf : s.bookings.filter
          (fun w => !(JNum.ofNat w.id).strictEq (strToNumber idParam)) = pre ++ post := by
        rw [hl]
        apply filter_others_of_nodup (·.id) _ pre post b _ _ hnd
        · simp [(JNum.ofNat_strictEq b.id _).2 hx]
        · intro w hw
          rw [Bool.not_eq_true', Bool.eq_false_iff, ne_eq, JNum.ofNat_strictEq, hx]
          intro he
          exact hw (JNum.ofNat_injective he).symm
      rw [e]
      refine ⟨pre, b, post, hl, hx, by simp only [hf], ?_, ?_⟩
      · dsimp only
        rw [hf, hl, List.length_append, List.length_append, List.length_cons]
        omega
      · intro w hw hne
        simp only [hf]
        rw [hl] at hw
        rcases List.mem_append.1 hw with hw | hw
        · exact List.mem_append_left _ hw
        · rcases List.mem_cons.1 hw with rfl | hw
          · exact absurd rfl hne
          · exact List.mem_append_right _ hw

/-- C17, from the initial state: after a booking is created, the delete of booking 1
leaves no booking and the seeded vehicle. -/
theorem delete_removes_one_witness :
    deleteBooking decimalToNumber
        (handle decimalToNumber "2026-01-01" initialState
          (.postBookings sampleBookingBody)).1 "1" =
      ({ initialState with nextBookingId := 2 }, ⟨204, .empty⟩) ∧
    ∃ (pre : List Booking) (b : Booking) (post : List Booking),
      (handle decimalToNumber "2026-01-01" initialState
        (.postBookings sampleBookingBody)).1.bookings = pre ++ b :: post ∧
      decimalToNumber "1" = JNum.ofNat b.id :=
  ⟨by decide,
    ((delete_removes_one decimalToNumber _
      (Reachable.step "2026-01-01" (.postBookings sampleBookingBody) Reachable.init) "1").2
      (by decide)).elim
      (fun pre hpre => hpre.elim (fun b hb => hb.elim (fun post hpost =>
        ⟨pre, b, post, hpost.1, hpost.2.1⟩)))⟩

end Server
